import Mathlib

/-!
Verification of the Narratix storyboard pipeline: a shallow embedding of
`src/agents/storyboard_agent.py` (the storyboard generator's JSON recovery and
normalization) and `src/renderer/manim_renderer.py` (the renderer's storyboard
re-normalization and scene-code emission), with theorems settling the spec's
claims about them.

Python JSON values are embedded as the inductive `PyJson`; Python dicts become
association lists with first-match lookup and replace-in-place/append-at-end
assignment (matching CPython's insertion-order semantics); numbers are embedded
as `Rat` (exact; the int/float distinction of CPython is not tracked — no
claim below depends on it, and integral values print identically); fallible
Python code returns `Except PyErr`.
-/

namespace Narratix

/-- A Python value decoded from JSON: the value space of `json.loads`. -/
inductive PyJson where
  | null
  | bool (b : Bool)
  | num (q : Rat)
  | str (s : String)
  | arr (xs : List PyJson)
  | obj (kvs : List (String × PyJson))

/-- Errors raised by the embedded Python fragments (ValueError from `int()`,
TypeError from iterating a non-iterable or from arithmetic on a non-number,
AttributeError from `.get` on a non-dict, IndexError from list indexing). -/
inductive PyErr where
  | valueError
  | typeError
  | attributeError
  | indexError
deriving DecidableEq, Repr

namespace PyJson

/-- Dict lookup, `d.get(k)`: the value at the first (unique) matching key. -/
def lookupKey (kvs : List (String × PyJson)) (k : String) : Option PyJson :=
  match kvs with
  | [] => none
  | (k', v) :: rest => if k' = k then some v else lookupKey rest k

/-- Dict assignment `d[k] = v`: update in place when the key exists, else
append at the end (CPython insertion-order semantics). -/
def setKey (kvs : List (String × PyJson)) (k : String) (v : PyJson) :
    List (String × PyJson) :=
  match kvs with
  | [] => [(k, v)]
  | (k', v') :: rest =>
      if k' = k then (k', v) :: rest else (k', v') :: setKey rest k v

/-- `d.get(k)` on a dict; `none` when the key is absent. -/
def get? : PyJson → String → Option PyJson
  | obj kvs, k => lookupKey kvs k
  | _, _ => none

/-- `d.get(k, default)` on a dict. -/
def getD (j : PyJson) (k : String) (default : PyJson) : PyJson :=
  (j.get? k).getD default

/-- Python truthiness of a decoded JSON value. -/
def truthy : PyJson → Bool
  | null => false
  | bool b => b
  | num q => q ≠ 0
  | str s => s ≠ ""
  | arr xs => ¬xs.isEmpty
  | obj kvs => ¬kvs.isEmpty

/-- `a or b` on decoded JSON values: `a` when truthy, else `b`. -/
def pyOr (a b : PyJson) : PyJson := if a.truthy then a else b

/-- `k in d` membership test for a dict value. -/
def hasKey (j : PyJson) (k : String) : Bool := (j.get? k).isSome

end PyJson

open PyJson

/-- The opening brace character, `{`. -/
def lbrace : Char := '\x7b'

/-- The closing brace character, `}`. -/
def rbrace : Char := '\x7d'

/-- Python `str.strip` / `json` whitespace for ASCII text
(space, tab, newline, carriage return, vertical tab, form feed;
non-ASCII whitespace is not modelled — no claim uses it). -/
def isPyWs (c : Char) : Bool :=
  c = ' ' || c = '\t' || c = '\n' || c = '\r' || c = '\x0b' || c = '\x0c'

/-- Python `s.strip()` on a character list. -/
def stripChars (cs : List Char) : List Char :=
  ((cs.dropWhile isPyWs).reverse.dropWhile isPyWs).reverse

/-- Python `s.strip()` on a string. -/
def pyStrip (s : String) : String := String.mk (stripChars s.data)

/-- ASCII decimal digit test, by code point. -/
def isDig (c : Char) : Bool := 48 ≤ c.toNat && c.toNat ≤ 57

/-- Decimal value of a digit run (most significant first). -/
def digitsVal (ds : List Char) : Nat :=
  ds.foldl (fun a c => a * 10 + (c.toNat - '0'.toNat)) 0

/-- Decimal rendering of a natural number (explicit, kernel-reducible). -/
def natDigits (n : Nat) : List Char :=
  (Nat.toDigits 10 n)

/-- Python `str(n)` for an integer. -/
def intStr (n : Int) : String :=
  if n < 0 then String.mk ('-' :: natDigits n.natAbs) else String.mk (natDigits n.natAbs)

/-- Python `str(x)` for a number embedded as `Rat`. Integral values render as
CPython renders ints. CPython's float repr for non-integral values is not
modelled; no theorem in this file depends on the non-integral branch. -/
def pyNumStr (q : Rat) : String :=
  if q.den = 1 then intStr q.num
  else intStr q.num ++ "/" ++ intStr (q.den : Int)

/-- Python `int(x)` on a decoded JSON value: truncation toward zero for
numbers, 0/1 for booleans, base-10 parsing (after stripping whitespace, with
an optional sign) for strings, `ValueError`/`TypeError` otherwise.
CPython's underscore digit separators are not modelled. -/
def pyInt : PyJson → Except PyErr Int
  | .num q => .ok (Int.tdiv q.num (q.den : Int))
  | .bool b => .ok (if b then 1 else 0)
  | .str s =>
      let cs := stripChars s.data
      let signed : Bool × List Char :=
        match cs with
        | '-' :: rest => (true, rest)
        | '+' :: rest => (false, rest)
        | _ => (false, cs)
      if signed.2 ≠ [] ∧ signed.2.all isDig then
        .ok ((if signed.1 then -1 else 1) * (digitsVal signed.2 : Int))
      else .error .valueError
  | _ => .error .typeError

mutual

/-- Python `repr(x)` for a decoded JSON value: strings quoted, containers
rendered recursively (no claim depends on quoting corner cases). -/
def reprPy : PyJson → String
  | .null => "None"
  | .bool true => "True"
  | .bool false => "False"
  | .num q => pyNumStr q
  | .str s => "\x27" ++ s ++ "\x27"
  | .arr xs => "[" ++ reprItems xs ++ "]"
  | .obj kvs => String.mk [lbrace] ++ reprPairs kvs ++ String.mk [rbrace]

/-- Comma-joined `repr`s of list items. -/
def reprItems : List PyJson → String
  | [] => ""
  | [x] => reprPy x
  | x :: y :: rest => reprPy x ++ ", " ++ reprItems (y :: rest)

/-- Comma-joined `repr`s of dict pairs. -/
def reprPairs : List (String × PyJson) → String
  | [] => ""
  | [(k, v)] => "\x27" ++ k ++ "\x27: " ++ reprPy v
  | (k, v) :: p :: rest =>
      "\x27" ++ k ++ "\x27: " ++ reprPy v ++ ", " ++ reprPairs (p :: rest)

end

/-- Python `str(x)` for a decoded JSON value, as used by f-string
interpolation: the string itself for strings, `repr` otherwise. -/
def pyStr : PyJson → String
  | .str s => s
  | j => reprPy j

/-- Python `for` iteration: lists yield their items, strings their characters
(as one-character strings), dicts their keys; other values raise `TypeError`. -/
def pyIter : PyJson → Except PyErr (List PyJson)
  | .arr xs => .ok xs
  | .str s => .ok (s.data.map (fun c => PyJson.str (String.mk [c])))
  | .obj kvs => .ok (kvs.map (fun kv => PyJson.str kv.1))
  | _ => .error .typeError

/-- Python `x.get(k, default)` where `x` may not be a dict: `AttributeError`
on non-dicts. -/
def pyGetAttrD (j : PyJson) (k : String) (default : PyJson) :
    Except PyErr PyJson :=
  match j with
  | .obj kvs => .ok ((lookupKey kvs k).getD default)
  | _ => .error .attributeError

/-- ASCII `str.isupper`: at least one cased character and no lowercase one
(only ASCII letters are treated as cased; no claim uses non-ASCII text). -/
def pyIsUpper (s : String) : Bool :=
  s.data.any (fun c => 'A' ≤ c && c ≤ 'Z') &&
    !s.data.any (fun c => 'a' ≤ c && c ≤ 'z')

/-- List-prefix test for substring search: every needle character must
match the corresponding haystack character. -/
def isPrefixL (needle hay : List Char) : Bool :=
  match needle, hay with
  | [], _ => true
  | n :: ns, h :: hs => if n = h then isPrefixL ns hs else false
  | _ :: _, [] => false

/-- Python `needle in hay` substring test on character lists. -/
def containsSub (needle : List Char) : List Char → Bool
  | [] => isPrefixL needle []
  | c :: rest => isPrefixL needle (c :: rest) || containsSub needle rest

/-- Python `needle in hay` on strings. -/
def strContains (hay needle : String) : Bool := containsSub needle.data hay.data

/-! ### A model of `json.loads`

A recursive-descent parser for the JSON accepted by CPython's `json.loads`
in its default strict mode: the four whitespace characters between tokens,
`null`/`true`/`false`, numbers without leading zeros, strings with the eight
escapes and `\uXXXX` (surrogate pairs combined), arrays and objects with
string keys where a duplicate key keeps its first position but its last
value. Deviations, none exercised by any theorem: the non-standard
`NaN`/`Infinity`/`-Infinity` constants are rejected (the embedding has no
float infinities), and a lone surrogate escape decodes to the null
character rather than a surrogate code unit. -/

/-- JSON inter-token whitespace: space, tab, newline, carriage return. -/
def isJsonWs (c : Char) : Bool := c = ' ' || c = '\t' || c = '\n' || c = '\r'

/-- Skip inter-token whitespace. -/
def skipWsJ (cs : List Char) : List Char := cs.dropWhile isJsonWs

/-- Value of one hexadecimal digit, by code point: 0-9, then a-f, then
A-F. -/
def hexDigitVal (c : Char) : Option Nat :=
  let n := c.toNat
  if 48 ≤ n ∧ n ≤ 57 then some (n - 48)
  else if 97 ≤ n ∧ n ≤ 102 then some (n - 87)
  else if 65 ≤ n ∧ n ≤ 70 then some (n - 55)
  else none

/-- Value of a four-digit hexadecimal escape. -/
def hexQuad (a b c d : Char) : Option Nat := do
  let va ← hexDigitVal a
  let vb ← hexDigitVal b
  let vc ← hexDigitVal c
  let vd ← hexDigitVal d
  some (va * 4096 + vb * 256 + vc * 16 + vd)

/-- The eight single-character string escapes of JSON: quote, backslash and
slash map to themselves, the letter escapes to their control characters. -/
def jsonEsc (e : Char) : Option Char :=
  if e = '"' ∨ e = '\\' ∨ e = '/' then some e
  else if e = 'n' then some '\n'
  else if e = 't' then some '\t'
  else if e = 'r' then some '\r'
  else if e = 'b' then some '\x08'
  else if e = 'f' then some '\x0c'
  else none

/-- Parse a JSON string body after the opening quote; rejects unescaped
control characters (CPython strict mode). Structural on a fuel counter so
that it evaluates by kernel reduction; each step consumes at least one
character, so fuel exceeding the input length never runs out. -/
def parseStrBody (fuel : Nat) (acc : List Char) (cs : List Char) :
    Option (String × List Char) :=
  match fuel with
  | 0 => none
  | fuel + 1 =>
    match cs with
    | [] => none
    | c :: rest =>
        if c = '"' then some (String.mk acc.reverse, rest)
        else if c = '\\' then
          match rest with
          | 'u' :: a :: b :: c2 :: d :: rest2 =>
              match hexQuad a b c2 d with
              | none => none
              | some n =>
                  if 0xd800 ≤ n ∧ n < 0xdc00 then
                    match rest2 with
                    | '\\' :: 'u' :: a2 :: b2 :: c3 :: d2 :: rest3 =>
                        match hexQuad a2 b2 c3 d2 with
                        | some m =>
                            if 0xdc00 ≤ m ∧ m < 0xe000 then
                              parseStrBody fuel
                                (Char.ofNat (0x10000 + (n - 0xd800) * 0x400 +
                                  (m - 0xdc00)) :: acc) rest3
                            else
                              parseStrBody fuel
                                (Char.ofNat m :: Char.ofNat n :: acc) rest3
                        | none => none
                    | other => parseStrBody fuel (Char.ofNat n :: acc) other
                  else parseStrBody fuel (Char.ofNat n :: acc) rest2
          | e :: rest2 =>
              match jsonEsc e with
              | some ch => parseStrBody fuel (ch :: acc) rest2
              | none => none
          | [] => none
        else if c.toNat < 0x20 then none
        else parseStrBody fuel (c :: acc) rest

/-- Exact rational `m * 10 ^ e`, built through `mkRat` so that it evaluates
by kernel reduction. -/
def sciRat (m : Int) (e : Int) : Rat :=
  if 0 ≤ e then mkRat (m * 10 ^ e.toNat) 1
  else mkRat m (10 ^ (-e).toNat)

/-- Parse the fraction part of a number, if present. -/
def parseFracPart : List Char → Option (List Char × List Char)
  | '.' :: r =>
      let p := r.span isDig
      if p.1 = [] then none else some p
  | cs => some ([], cs)

/-- Parse the exponent part of a number, if present. -/
def parseExpPart : List Char → Option (Int × List Char)
  | c :: r =>
      if c = 'e' ∨ c = 'E' then
        let sp : Int × List Char :=
          match r with
          | '+' :: r2 => (1, r2)
          | '-' :: r2 => (-1, r2)
          | _ => (1, r)
        let p := sp.2.span isDig
        if p.1 = [] then none else some (sp.1 * (digitsVal p.1 : Int), p.2)
      else some (0, c :: r)
  | [] => some (0, [])

/-- Parse a JSON number (no leading zeros, optional fraction and exponent). -/
def parseJsonNum (cs : List Char) : Option (Rat × List Char) :=
  let sn : Bool × List Char :=
    if cs.head? = some '-' then (true, cs.tail) else (false, cs)
  let ip := sn.2.span isDig
  if ip.1 = [] then none
  else if ip.1.head? = some '0' ∧ ip.1.length > 1 then none
  else
    match parseFracPart ip.2 with
    | none => none
    | some (fds, r2) =>
        match parseExpPart r2 with
        | none => none
        | some (e, r3) =>
            let mant : Int :=
              (if sn.1 then -1 else 1) * (digitsVal (ip.1 ++ fds) : Int)
            some (sciRat mant (e - (fds.length : Int)), r3)

/-- Build a dict from parsed members: a duplicate key keeps its first
position but takes its last value, as in a CPython dict literal fill. -/
def mkDict (pairs : List (String × PyJson)) : List (String × PyJson) :=
  pairs.foldl (fun acc kv => setKey acc kv.1 kv.2) []

mutual

/-- Parse one JSON value after skipping leading whitespace. Fuel bounds the
nesting depth; the entry point supplies more fuel than the text's length,
which nesting can never reach. -/
def parseJsonVal (fuel : Nat) (cs : List Char) : Option (PyJson × List Char) :=
  match fuel with
  | 0 => none
  | fuel + 1 =>
    match skipWsJ cs with
    | [] => none
    | c :: r =>
        if c = '"' then
          match parseStrBody (r.length + 1) [] r with
          | some (s, r2) => some (.str s, r2)
          | none => none
        else if c = '[' then
          match skipWsJ r with
          | ']' :: r2 => some (.arr [], r2)
          | r1 =>
              match parseArrItems fuel r1 with
              | some (xs, r2) => some (.arr xs, r2)
              | none => none
        else if c = lbrace then
          match skipWsJ r with
          | d :: r2 =>
              if d = rbrace then some (.obj [], r2)
              else
                match parseMembers fuel (d :: r2) with
                | some (kvs, r3) => some (.obj (mkDict kvs), r3)
                | none => none
          | [] => none
        else if c = 'n' then
          match r with
          | 'u' :: 'l' :: 'l' :: r2 => some (.null, r2)
          | _ => none
        else if c = 't' then
          match r with
          | 'r' :: 'u' :: 'e' :: r2 => some (.bool true, r2)
          | _ => none
        else if c = 'f' then
          match r with
          | 'a' :: 'l' :: 's' :: 'e' :: r2 => some (.bool false, r2)
          | _ => none
        else if c = '-' ∨ isDig c then
          match parseJsonNum (c :: r) with
          | some (q, r2) => some (.num q, r2)
          | none => none
        else none

/-- Parse one or more comma-separated array items and the closing bracket. -/
def parseArrItems (fuel : Nat) (cs : List Char) :
    Option (List PyJson × List Char) :=
  match fuel with
  | 0 => none
  | fuel + 1 =>
    match parseJsonVal fuel cs with
    | none => none
    | some (v, r) =>
        match skipWsJ r with
        | ',' :: r2 =>
            match parseArrItems fuel r2 with
            | some (vs, r3) => some (v :: vs, r3)
            | none => none
        | ']' :: r2 => some ([v], r2)
        | _ => none

/-- Parse one or more comma-separated object members and the closing brace. -/
def parseMembers (fuel : Nat) (cs : List Char) :
    Option (List (String × PyJson) × List Char) :=
  match fuel with
  | 0 => none
  | fuel + 1 =>
    match skipWsJ cs with
    | '"' :: r =>
        match parseStrBody (r.length + 1) [] r with
        | none => none
        | some (k, r1) =>
            match skipWsJ r1 with
            | ':' :: r2 =>
                match parseJsonVal fuel r2 with
                | none => none
                | some (v, r3) =>
                    match skipWsJ r3 with
                    | ',' :: r4 =>
                        match parseMembers fuel r4 with
                        | some (kvs, r5) => some ((k, v) :: kvs, r5)
                        | none => none
                    | d :: r4 =>
                        if d = rbrace then some ([(k, v)], r4) else none
                    | [] => none
            | _ => none
    | _ => none

end

/-- Model of `json.loads` on a character list: one complete JSON document,
with only whitespace allowed after it. -/
def jsonLoads (cs : List Char) : Option PyJson :=
  match parseJsonVal (cs.length + 1) cs with
  | some (v, rest) => if skipWsJ rest = [] then some v else none
  | none => none

/-- Model of `json.loads` on a string. -/
def jsonLoadsS (s : String) : Option PyJson := jsonLoads s.data

/-! ### A model of `json.dumps` (default options) -/

/-- One hexadecimal digit character (lowercase), by code point. -/
def hexDigitChar (n : Nat) : Char :=
  Char.ofNat (if n < 10 then 48 + n else 87 + n)

/-- Four-digit hexadecimal rendering for a `\uXXXX` escape. -/
def hexQuadStr (n : Nat) : List Char :=
  ['\\', 'u', hexDigitChar (n / 4096 % 16), hexDigitChar (n / 256 % 16),
   hexDigitChar (n / 16 % 16), hexDigitChar (n % 16)]

/-- Encoding of one character inside a `json.dumps` string literal
(`ensure_ascii` behavior: control and non-ASCII characters escaped). -/
def dumpsChar (c : Char) : List Char :=
  if c = '"' then ['\\', '"']
  else if c = '\\' then ['\\', '\\']
  else if c = '\n' then ['\\', 'n']
  else if c = '\r' then ['\\', 'r']
  else if c = '\t' then ['\\', 't']
  else if c = '\x08' then ['\\', 'b']
  else if c = '\x0c' then ['\\', 'f']
  else if c.toNat < 0x20 ∨ c.toNat > 0x7e then
    if c.toNat ≥ 0x10000 then
      hexQuadStr (0xd800 + (c.toNat - 0x10000) / 0x400) ++
        hexQuadStr (0xdc00 + (c.toNat - 0x10000) % 0x400)
    else hexQuadStr c.toNat
  else [c]

/-- The `json.dumps` rendering of a string. -/
def dumpsStr (s : String) : String :=
  "\"" ++ String.mk (s.data.flatMap dumpsChar) ++ "\""

mutual

/-- Model of `json.dumps` with default separators. Integral numbers render
as CPython ints; the non-integral branch reuses `pyNumStr` and is exercised
by no theorem. -/
def jsonDumps : PyJson → String
  | .null => "null"
  | .bool true => "true"
  | .bool false => "false"
  | .num q => pyNumStr q
  | .str s => dumpsStr s
  | .arr xs => "[" ++ dumpsItems xs ++ "]"
  | .obj kvs => String.mk [lbrace] ++ dumpsPairs kvs ++ String.mk [rbrace]

/-- Comma-joined `json.dumps` renderings of array items. -/
def dumpsItems : List PyJson → String
  | [] => ""
  | [x] => jsonDumps x
  | x :: y :: rest => jsonDumps x ++ ", " ++ dumpsItems (y :: rest)

/-- Comma-joined `json.dumps` renderings of object members. -/
def dumpsPairs : List (String × PyJson) → String
  | [] => ""
  | [(k, v)] => dumpsStr k ++ ": " ++ jsonDumps v
  | (k, v) :: p :: rest =>
      dumpsStr k ++ ": " ++ jsonDumps v ++ ", " ++ dumpsPairs (p :: rest)

end

/-! ### Storyboard generator (src/agents/storyboard_agent.py 164-266)

The claims all start from the model response text already extracted from the
backend's return value (`result_text` in the source), so the embedding
starts there: direct parse, balanced-brace recovery, fallback document,
normalization. -/

/-- Integer as a decoded JSON number. -/
def intVal (n : Int) : PyJson := .num (mkRat n 1)

/-- Brace-depth counter update for one character (lines 174-177). -/
def depthStep (count : Int) (c : Char) : Int :=
  if c = lbrace then count + 1 else if c = rbrace then count - 1 else count

/-- The balanced-brace recovery loop (lines 172-185), run on the suffix of
the text that starts at its first opening brace: walk with a brace-depth
counter; each time the depth returns to zero at a closing brace, submit the
span scanned so far to `json.loads`; stop at the first parse that succeeds
and continue past parses that fail. `taken` holds the scanned span,
reversed. -/
def extractLoop (count : Int) (taken : List Char) : List Char → Option PyJson
  | [] => none
  | c :: rest =>
      let count2 := depthStep count c
      let taken2 := c :: taken
      if c = rbrace ∧ count2 = 0 then
        match jsonLoads taken2.reverse with
        | some j => some j
        | none => extractLoop count2 taken2 rest
      else extractLoop count2 taken2 rest

/-- JSON-substring recovery (lines 169-185): nothing to recover when the
text has no opening brace; otherwise scan from the first one. -/
def extractJson (cs : List Char) : Option PyJson :=
  match cs.dropWhile (fun c => c ≠ lbrace) with
  | [] => none
  | c :: rest => extractLoop 0 [] (c :: rest)

/-- The candidate spans the recovery loop submits to `json.loads` from a
given scan state, in scan order (specification companion to
`extractLoop`). -/
def scanSpans (count : Int) (taken : List Char) : List Char → List (List Char)
  | [] => []
  | c :: rest =>
      let count2 := depthStep count c
      let taken2 := c :: taken
      if c = rbrace ∧ count2 = 0 then
        taken2.reverse :: scanSpans count2 taken2 rest
      else scanSpans count2 taken2 rest

/-- All candidate spans of the balanced-brace recovery on a text. -/
def braceCandidates (cs : List Char) : List (List Char) :=
  match cs.dropWhile (fun c => c ≠ lbrace) with
  | [] => []
  | c :: rest => scanSpans 0 [] (c :: rest)

/-- The default text element built both by the fallback storyboard (lines
199-206) and by the bare-string branch of element normalization (lines
234-241): content `txt`, position `[0, 0]`, color WHITE, FadeIn, scale 1. -/
def defaultTextElement (txt : String) : PyJson :=
  .obj [("type", .str "text"), ("content", .str txt),
        ("position", .arr [intVal 0, intVal 0]), ("color", .str "WHITE"),
        ("animation", .str "FadeIn"), ("scale", intVal 1)]

/-- The single scene of the fallback storyboard (lines 193-208): scene id
1, duration 5, the stripped raw text as narration, and one default text
element carrying that text. -/
def fallbackScene (resultText : String) : PyJson :=
  .obj [("scene_id", intVal 1), ("duration", intVal 5),
        ("narration", .str (pyStrip resultText)),
        ("animation_type", .str "text"),
        ("elements", .arr [defaultTextElement (pyStrip resultText)])]

/-- The fallback storyboard built when no JSON object could be recovered
(lines 187-210): one scene of duration 5 whose narration and single text
element carry the stripped raw text. -/
def fallbackStoryboard (resultText : String) : PyJson :=
  .obj [("title", .str "Generated Storyboard"),
        ("description",
          .str "Auto-generated fallback storyboard due to non-JSON model output"),
        ("scenes", .arr [fallbackScene resultText])]

/-- Element coercion inside `_normalize` (lines 232-252): a bare string
becomes a default text element, a dict is refilled field by field with the
stated defaults, and any other value is dropped. -/
def normalizeElement : PyJson → Option PyJson
  | .str s => some (defaultTextElement s)
  | .obj kvs =>
      let e := PyJson.obj kvs
      some (.obj [
        ("type", e.getD "type" (.str "text")),
        ("content", e.getD "content" (.str "")),
        ("position", e.getD "position" (.arr [intVal 0, intVal 0])),
        ("color", e.getD "color" (.str "WHITE")),
        ("animation", e.getD "animation" (.str "FadeIn")),
        ("scale", e.getD "scale" (intVal 1))])
  | _ => none

/-- Coercion of a scene entry that is not a dict (lines 223-224): a minimal
scene carrying the entry's string form as narration. -/
def coerceScene (s0 : PyJson) : PyJson :=
  match s0 with
  | .obj kvs => .obj kvs
  | other => .obj [("narration", .str (pyStr other))]

/-- Line 225: `s.get("scene_id") or s.get("id") or idx`. -/
def sceneIdRawOf (idx : Nat) (s : PyJson) : PyJson :=
  (s.getD "scene_id" .null).pyOr ((s.getD "id" .null).pyOr (intVal idx))

/-- Line 227: `s.get("narration") or s.get("description") or s.get("text")
or ""`. -/
def narrationOf (s : PyJson) : PyJson :=
  (s.getD "narration" .null).pyOr
    ((s.getD "description" .null).pyOr ((s.getD "text" .null).pyOr (.str "")))

/-- Line 228: `s.get("animation_type") or s.get("type") or "text"`. -/
def animationTypeOf (s : PyJson) : PyJson :=
  (s.getD "animation_type" .null).pyOr ((s.getD "type" .null).pyOr (.str "text"))

/-- Line 230: `s.get("elements") or s.get("actions") or []`. -/
def elementsValOf (s : PyJson) : PyJson :=
  (s.getD "elements" .null).pyOr ((s.getD "actions" .null).pyOr (.arr []))

/-- Scene normalization inside `_normalize` (lines 222-260) for the scene at
1-based position `idx`: a non-dict entry is coerced to a minimal scene
carrying its string form as narration; `scene_id`, narration, animation
type and elements are resolved by `or`-chaining; duration is taken verbatim
with default 5; `int()` of the resolved scene id can raise, as can
iterating a non-iterable `elements` value. -/
def normalizeScene (idx : Nat) (s0 : PyJson) : Except PyErr PyJson := do
  let s := coerceScene s0
  let sceneId ← pyInt (sceneIdRawOf idx s)
  let items ← pyIter (elementsValOf s)
  .ok (.obj [
    ("scene_id", intVal sceneId),
    ("duration", s.getD "duration" (intVal 5)),
    ("narration", narrationOf s),
    ("animation_type", animationTypeOf s),
    ("elements", .arr (items.filterMap normalizeElement))])

/-- The scene loop of `_normalize`, enumerating from 1 (line 222). -/
def normalizeScenes (idx : Nat) : List PyJson → Except PyErr (List PyJson)
  | [] => .ok []
  | s :: rest => do
      let t ← normalizeScene idx s
      let ts ← normalizeScenes (idx + 1) rest
      .ok (t :: ts)

/-- The generator's `_normalize` (lines 213-263). Its non-dict branch
returns the enclosing function's `storyboard` variable — at the sole call
site, the very value `_normalize` was called on — passed here as
`closure`. A dict input gains a default title when it has none, has a
missing or non-list `scenes` replaced by the empty list, and has its scenes
normalized one by one. -/
def normalizeGen (closure : PyJson) : PyJson → Except PyErr PyJson
  | .obj kvs => do
      let kvs1 :=
        if (lookupKey kvs "title").isSome then kvs
        else setKey kvs "title" (.str "Generated Storyboard")
      let kvs2 :=
        match lookupKey kvs1 "scenes" with
        | some (.arr _) => kvs1
        | _ => setKey kvs1 "scenes" (.arr [])
      let scenes :=
        match lookupKey kvs2 "scenes" with
        | some (.arr xs) => xs
        | _ => []
      let normalized ← normalizeScenes 1 scenes
      .ok (.obj (setKey kvs2 "scenes" (.arr normalized)))
  | _ => .ok closure

/-- Lines 164-266 of `generate_storyboard`, from the extracted model
response text: direct `json.loads`, else balanced-brace recovery, else the
fallback document; then `_normalize` applied to the result, closing over
that same value as `storyboard`. -/
def generate_storyboard (resultText : String) : Except PyErr PyJson :=
  let parsed : Option PyJson :=
    match jsonLoadsS resultText with
    | some j => some j
    | none => extractJson resultText.data
  let storyboard :=
    match parsed with
    | some j => j
    | none => fallbackStoryboard resultText
  normalizeGen storyboard storyboard

/-! ### Renderer (src/renderer/manim_renderer.py) -/

/-- Python `s.startswith(t)`. -/
def strStartsWith (s t : String) : Bool := isPrefixL t.data s.data

/-- List indexing that raises `IndexError` out of range. -/
def pyIndex (xs : List PyJson) (i : Nat) : Except PyErr PyJson :=
  match xs.get? i with
  | some v => .ok v
  | none => .error .indexError

/-- Subtraction of 1 from a Python number (`duration - 1`): numbers and
booleans subtract, anything else raises `TypeError`. -/
def pySubOne : PyJson → Except PyErr Rat
  | .num q => .ok (mkRat (q.num - (q.den : Int)) q.den)
  | .bool b => .ok (mkRat ((if b then 1 else 0) - 1) 1)
  | _ => .error .typeError

/-- Python `max(0, q)` for a number. -/
def ratMax0 (q : Rat) : Rat := if q.num < 0 then mkRat 0 1 else q

/-- One merge step of `_normalize_storyboard` (lines 36-39): copy the
outer document's field `k` into the merged dict only when the merged dict
lacks it and the outer one has it. -/
def mergeField (outer m : List (String × PyJson)) (k : String) :
    List (String × PyJson) :=
  if (lookupKey m k).isNone ∧ (lookupKey outer k).isSome then
    setKey m k ((lookupKey outer k).getD .null)
  else m

/-- Merging of outer `title`/`description` into the parsed inner storyboard
(lines 34-39): each is copied only when the inner document lacks it and the
outer one has it. -/
def mergeMeta (outer inner : List (String × PyJson)) : List (String × PyJson) :=
  mergeField outer (mergeField outer inner "title") "description"

/-- The renderer's `_normalize_storyboard` (lines 18-44): when the document
has exactly one scene whose `description` is a string that looks like an
embedded storyboard (contains `"scenes"` or `"scene_id"`, or starts with a
brace after stripping) and parses to a dict with a `scenes` list, replace
the document by that inner dict, merging the outer `title`/`description`
when the inner one lacks them; in every other case return the document
unchanged. -/
def normalize_storyboard (storyboard : PyJson) : Except PyErr PyJson := do
  let scenes ← pyGetAttrD storyboard "scenes" (.arr [])
  match scenes with
  | .arr [first] => do
      let desc ← pyGetAttrD first "description" (.str "")
      match desc with
      | .str d =>
          if strContains d "\"scenes\"" || strContains d "\"scene_id\"" ||
              strStartsWith (pyStrip d) (String.mk [lbrace]) then
            match jsonLoadsS d with
            | some (.obj pkvs) =>
                match lookupKey pkvs "scenes" with
                | some (.arr _) =>
                    match storyboard with
                    | .obj skvs => .ok (.obj (mergeMeta skvs pkvs))
                    | _ => .error .attributeError
                | _ => .ok storyboard
            | _ => .ok storyboard
          else .ok storyboard
      | _ => .ok storyboard
  | _ => .ok storyboard

/-- Decimal rendering of a natural number as a string. -/
def natStr (n : Nat) : String := String.mk (natDigits n)

/-- The element-construction line emitted by `_create_element_code` for a
given element type and content literal (lines 111-131): each known type maps
to one primitive, unknown types to a placeholder text. Python's `==` between
a non-string type value and a string literal is `False`, so non-string types
also take the placeholder branch. -/
def creationLine (varName : String) (elemType : PyJson) (contentLiteral : String) :
    String :=
  let t : Option String :=
    match elemType with
    | .str t => some t
    | _ => none
  if t = some "text" then
    "        " ++ varName ++ " = Text(" ++ contentLiteral ++ ")\n"
  else if t = some "equation" then
    "        " ++ varName ++ " = MathTex(" ++ contentLiteral ++ ")\n"
  else if t = some "circle" then
    "        " ++ varName ++ " = Circle()\n"
  else if t = some "square" then
    "        " ++ varName ++ " = Square()\n"
  else if t = some "arrow" then
    "        " ++ varName ++ " = Arrow(start=LEFT, end=RIGHT)\n"
  else if t = some "line" then
    "        " ++ varName ++ " = Line(start=LEFT, end=RIGHT)\n"
  else if t = some "axes" then
    "        " ++ varName ++ " = Axes()\n"
  else if t = some "graph" then
    "        " ++ varName ++ " = Axes()\n"
  else
    "        " ++ varName ++ " = Text(" ++ jsonDumps (.str "Unknown element") ++ ")\n"

/-- Position padding (lines 103-104): a two-entry position gains a zero z
component. -/
def padPos (ps : List PyJson) : List PyJson :=
  if ps.length = 2 then ps ++ [intVal 0] else ps

/-- The renderer's `_create_element_code` (lines 93-138), as the list of
emitted lines: the construction line, then `set_color`, `scale` and
`move_to` property lines. `content` is literalized with `json.dumps`; a
string color that satisfies `isupper` is emitted bare, any other color goes
through `json.dumps`; scale and the three position components are
interpolated with `str()`. -/
def create_element_code_lines (varName : String) (element : PyJson) :
    Except PyErr (List String) := do
  let elemType ← pyGetAttrD element "type" (.str "text")
  let content ← pyGetAttrD element "content" (.str "")
  let posRaw ← pyGetAttrD element "position" (.arr [intVal 0, intVal 0, intVal 0])
  let posItems ← pyIter posRaw
  let color ← pyGetAttrD element "color" (.str "WHITE")
  let scale ← pyGetAttrD element "scale" (intVal 1)
  let position := padPos posItems
  let contentLiteral := jsonDumps content
  let colorLiteral :=
    match color with
    | .str c => if pyIsUpper c then c else jsonDumps (.str c)
    | other => jsonDumps other
  let p0 ← pyIndex position 0
  let p1 ← pyIndex position 1
  let p2 ← pyIndex position 2
  .ok [creationLine varName elemType contentLiteral,
       "        " ++ varName ++ ".set_color(" ++ colorLiteral ++ ")\n",
       "        " ++ varName ++ ".scale(" ++ pyStr scale ++ ")\n",
       "        " ++ varName ++ ".move_to([" ++ pyStr p0 ++ ", " ++ pyStr p1 ++
         ", " ++ pyStr p2 ++ "])\n"]

/-- `_create_element_code` as the single string the caller appends. -/
def create_element_code (varName : String) (element : PyJson) :
    Except PyErr String := do
  let lines ← create_element_code_lines varName element
  .ok (String.join lines)

/-- The element variable name `elem_{scene_id}_{idx}` (line 66). -/
def elemVar (sceneIdS : String) (idx : Nat) : String :=
  "elem_" ++ sceneIdS ++ "_" ++ natStr idx

/-- The element loop of `_generate_scene_code` (lines 65-70): one code chunk
per element, with 0-based element indices in the variable names. -/
def elementsCode (sceneIdS : String) (idx : Nat) :
    List PyJson → Except PyErr (List String)
  | [] => .ok []
  | e :: rest => do
      let c ← create_element_code (elemVar sceneIdS idx) e
      let cs ← elementsCode sceneIdS (idx + 1) rest
      .ok (c :: cs)

/-- The animation-call list of the combined appear statement (lines 74-78):
each element's configured animation applied to its variable. -/
def animCalls (sceneIdS : String) (idx : Nat) :
    List PyJson → Except PyErr (List String)
  | [] => .ok []
  | e :: rest => do
      let anim ← pyGetAttrD e "animation" (.str "FadeIn")
      let more ← animCalls sceneIdS (idx + 1) rest
      .ok ((pyStr anim ++ "(" ++ elemVar sceneIdS idx ++ ")") :: more)

/-- Narration sanitization (lines 57-59): falsy narration becomes the empty
string, then newlines and carriage returns become spaces; `.replace` on a
truthy non-string raises. -/
def safeNarration (narrRaw : PyJson) : Except PyErr String :=
  match (if narrRaw.truthy then narrRaw else .str "") with
  | .str s =>
      .ok (String.mk (s.data.map (fun c => if c = '\n' ∨ c = '\r' then ' ' else c)))
  | _ => .error .attributeError

/-- The per-scene body of `_generate_scene_code`'s loop (lines 55-88), as
the chunks the loop appends for the scene at 1-based position `i`: the
scene comment; one chunk per element; and, when the scene has elements, the
combined appear statement, the `max(0, duration - 1)` wait and the combined
fade-out. -/
def sceneChunk (i : Nat) (scene : PyJson) : Except PyErr (List String) := do
  let idDefault ← pyGetAttrD scene "id" (intVal i)
  let sceneId ← pyGetAttrD scene "scene_id" idDefault
  let narrDefault ← pyGetAttrD scene "description" (.str "")
  let narrRaw ← pyGetAttrD scene "narration" narrDefault
  let safeNarr ← safeNarration narrRaw
  let comment :=
    "\n        # Scene " ++ pyStr sceneId ++ ": " ++
      String.mk (safeNarr.data.take 70) ++ "...\n"
  let elementsVal ← pyGetAttrD scene "elements" (.arr [])
  let items ← pyIter elementsVal
  let sceneIdS := pyStr sceneId
  let elemChunks ← elementsCode sceneIdS 0 items
  match items with
  | [] => .ok [comment]
  | _ :: _ => do
      let anims ← animCalls sceneIdS 0 items
      let play := "        self.play(" ++ String.intercalate ", " anims ++ ")\n"
      let duration ← pyGetAttrD scene "duration" (intVal 3)
      let dMinus1 ← pySubOne duration
      let waitLine :=
        "        self.wait(" ++ pyNumStr (ratMax0 dMinus1) ++ ")\n"
      let vars := (List.range items.length).map (elemVar sceneIdS)
      let fade :=
        "        self.play(" ++
          String.intercalate ", " (vars.map (fun v => "FadeOut(" ++ v ++ ")")) ++
          ")\n"
      .ok ([comment] ++ elemChunks ++ [play, waitLine, fade])

/-- The scene loop of `_generate_scene_code`, enumerating from 1 (line 55). -/
def scenesLoop (i : Nat) : List PyJson → Except PyErr (List String)
  | [] => .ok []
  | s :: rest => do
      let cs ← sceneChunk i s
      let more ← scenesLoop (i + 1) rest
      .ok (cs ++ more)

/-- The fixed header of the generated scene file (lines 48-52). -/
def sceneHeader : String :=
  "from manim import *\n\nclass GeneratedScene(Scene):\n    def construct(self):\n"

/-- The renderer's `_generate_scene_code` (lines 46-91), as the list of
chunks the source concatenates: the header, the per-scene chunks in order,
and one final one-second wait. -/
def generate_scene_code (storyboard : PyJson) : Except PyErr (List String) := do
  let scenesVal ← pyGetAttrD storyboard "scenes" (.arr [])
  let scenes ← pyIter scenesVal
  let body ← scenesLoop 1 scenes
  .ok ([sceneHeader] ++ body ++ ["        self.wait(1)\n"])

/-! ### Boolean equality on decoded values (for stating inequalities) -/

mutual

/-- Structural equality of decoded JSON values. -/
def beqPy : PyJson → PyJson → Bool
  | .null, .null => true
  | .bool a, .bool b => a = b
  | .num a, .num b => a = b
  | .str a, .str b => a = b
  | .arr a, .arr b => beqPyList a b
  | .obj a, .obj b => beqPyPairs a b
  | _, _ => false

/-- Pointwise `beqPy` on lists. -/
def beqPyList : List PyJson → List PyJson → Bool
  | [], [] => true
  | a :: as, b :: bs => beqPy a b && beqPyList as bs
  | _, _ => false

/-- Pointwise `beqPy` on key-value lists. -/
def beqPyPairs : List (String × PyJson) → List (String × PyJson) → Bool
  | [], [] => true
  | (k, v) :: as, (l, w) :: bs => k = l && beqPy v w && beqPyPairs as bs
  | _, _ => false

end

/-! ### Backend call retry loop (src/agents/storyboard_agent.py 30-46) -/

/-- Outcome of one HTTP POST to the completion backend. -/
inductive ReqOutcome where
  | success
  | readTimeout
  | connError
  | reqError
deriving DecidableEq, Repr

/-- How the retry loop of `OllamaLLM._call` ends. -/
inductive CallResult where
  | ok
  | fatalTimeout
  | fatalConn
  | fatalReq
deriving DecidableEq, Repr

/-- Observable trace of the retry loop: how many POSTs were made, the
backoff sleeps in order (in seconds), and how the loop ended. -/
structure CallTrace where
  attemptsMade : Nat
  sleeps : List Nat
  result : CallResult
deriving DecidableEq, Repr

/-- The retry loop of `OllamaLLM._call` (lines 32-46), with `outcomes k`
the result of the k-th POST (0-based; `attempt` counts the POSTs already
made). A success breaks out of the loop; a ReadTimeout increments
`attempt`, then either raises the fatal timeout error once `attempt` has
reached `maxRetries` or sleeps `2 ** attempt` seconds and retries; a
ConnectionError or any other RequestException raises a fatal error at
once, with no retry. -/
def retryGo (maxRetries : Nat) (outcomes : Nat → ReqOutcome) (attempt : Nat)
    (sleeps : List Nat) : CallTrace :=
  match outcomes attempt with
  | .success => ⟨attempt + 1, sleeps, .ok⟩
  | .connError => ⟨attempt + 1, sleeps, .fatalConn⟩
  | .reqError => ⟨attempt + 1, sleeps, .fatalReq⟩
  | .readTimeout =>
      if h : maxRetries ≤ attempt + 1 then ⟨attempt + 1, sleeps, .fatalTimeout⟩
      else retryGo maxRetries outcomes (attempt + 1) (sleeps ++ [2 ^ (attempt + 1)])
termination_by maxRetries - attempt
decreasing_by omega

/-- `OllamaLLM._call`'s request phase: the retry loop entered with
`attempt = 0` and the configured retry count clamped to at least 1
(line 30). -/
def ollamaCall (configuredRetries : Int) (outcomes : Nat → ReqOutcome) :
    CallTrace :=
  retryGo (max 1 configuredRetries).toNat outcomes 0 []

/-! ### Balanced-span predicates (specification side, for C3 and C6) -/

/-- Whether the brace-depth counter, started at `count`, ever returns to
zero at a closing brace while scanning the list. -/
def hitsZero (count : Int) : List Char → Bool
  | [] => false
  | c :: rest =>
      let count2 := depthStep count c
      (c = rbrace ∧ count2 = 0) || hitsZero count2 rest

/-- Whether the list itself begins a balanced `{...}` span: it starts with
an opening brace and depth counting from it returns to zero. -/
def balancedSpanFrom (cs : List Char) : Bool :=
  match cs with
  | c :: _ => c = lbrace && hitsZero 0 cs
  | [] => false

/-- Whether the text contains a balanced `{...}` substring anywhere
(the spec's glossary sense: depth counting from an opening brace returns
to zero). -/
def hasBalancedSpan (cs : List Char) : Bool :=
  (List.range cs.length).any (fun p => balancedSpanFrom (cs.drop p))

/-- Length of the shortest prefix at which the brace-depth counter,
started at `count`, returns to zero at a closing brace. -/
def firstZeroLen (count : Int) : List Char → Option Nat
  | [] => none
  | c :: rest =>
      let count2 := depthStep count c
      if c = rbrace ∧ count2 = 0 then some 1
      else (firstZeroLen count2 rest).map (· + 1)

/-- The shortest complete `{...}` span starting at the text's first opening
brace, located by brace-depth counting (the spec's glossary definition of
balanced-brace extraction). -/
def shortestBalancedSpan (cs : List Char) : Option (List Char) :=
  let suffix := cs.dropWhile (fun c => c ≠ lbrace)
  (firstZeroLen 0 suffix).map (fun n => suffix.take n)

/-! ### Well-formed storyboards (the data model of spec section 3, as far as
scene-code emission relies on it) -/

/-- A well-formed element for emission: a dict whose `position`, when
present, is a list of two, or at least three, entries. -/
def wfElement : PyJson → Bool
  | .obj kvs =>
      match lookupKey kvs "position" with
      | none => true
      | some (.arr ps) => ps.length = 2 || decide (3 ≤ ps.length)
      | some _ => false
  | _ => false

/-- A well-formed scene for emission: a dict whose `duration`, when
present, is a number; whose resolved narration is a string whenever it is
truthy; and whose `elements`, when present, is a list of well-formed
elements. -/
def wfScene : PyJson → Bool
  | .obj kvs =>
      (match lookupKey kvs "duration" with
       | none => true
       | some (.num _) => true
       | some _ => false) &&
      (let narrRaw :=
        ((lookupKey kvs "narration").getD
          ((lookupKey kvs "description").getD (.str "")))
       match narrRaw with
       | .str _ => true
       | x => !x.truthy) &&
      (match lookupKey kvs "elements" with
       | none => true
       | some (.arr es) => es.all wfElement
       | some _ => false)
  | _ => false

/-! ### Specification-side emission (spec section 4.2's description of the
scene-code generator, written from the spec's words; the C8 theorem proves
the source emission equal to it on well-formed storyboards) -/

/-- Spec-side element statements: one construction statement chosen by
type, then color, scale and position statements, with content JSON-encoded
and a z position defaulting to 0. -/
def specElementCode (varName : String) (e : PyJson) : String :=
  let elemType := e.getD "type" (.str "text")
  let content := e.getD "content" (.str "")
  let posItems :=
    match e.getD "position" (.arr [intVal 0, intVal 0, intVal 0]) with
    | .arr ps => ps
    | _ => []
  let position := padPos posItems
  let color := e.getD "color" (.str "WHITE")
  let scale := e.getD "scale" (intVal 1)
  let colorLiteral :=
    match color with
    | .str c => if pyIsUpper c then c else jsonDumps (.str c)
    | other => jsonDumps other
  String.join
    [creationLine varName elemType (jsonDumps content),
     "        " ++ varName ++ ".set_color(" ++ colorLiteral ++ ")\n",
     "        " ++ varName ++ ".scale(" ++ pyStr scale ++ ")\n",
     "        " ++ varName ++ ".move_to([" ++
       pyStr ((position.get? 0).getD (intVal 0)) ++ ", " ++
       pyStr ((position.get? 1).getD (intVal 0)) ++ ", " ++
       pyStr ((position.get? 2).getD (intVal 0)) ++ "])\n"]

/-- Spec-side per-scene emission: the comment with the scene id and the
truncated sanitized narration; one chunk per element; and, only when the
scene has at least one element, exactly one combined appear statement
invoking each element's configured animation, one wait statement for
`max(0, duration - 1)` seconds, and one combined fade-out statement for
all the scene's elements. A scene with no elements contributes only its
comment. -/
def specSceneCode (i : Nat) (scene : PyJson) : List String :=
  let sceneId := scene.getD "scene_id" (scene.getD "id" (intVal i))
  let narrRaw := scene.getD "narration" (scene.getD "description" (.str ""))
  let narr :=
    match (if narrRaw.truthy then narrRaw else .str "") with
    | .str s => String.mk (s.data.map (fun c => if c = '\n' ∨ c = '\r' then ' ' else c))
    | _ => ""
  let comment :=
    "\n        # Scene " ++ pyStr sceneId ++ ": " ++
      String.mk (narr.data.take 70) ++ "...\n"
  let es :=
    match scene.getD "elements" (.arr []) with
    | .arr es => es
    | _ => []
  let sceneIdS := pyStr sceneId
  match es with
  | [] => [comment]
  | _ :: _ =>
      let elemChunks :=
        es.enum.map (fun p => specElementCode (elemVar sceneIdS p.1) p.2)
      let anims :=
        es.enum.map
          (fun p =>
            pyStr (p.2.getD "animation" (.str "FadeIn")) ++
              "(" ++ elemVar sceneIdS p.1 ++ ")")
      let play := "        self.play(" ++ String.intercalate ", " anims ++ ")\n"
      let duration :=
        match scene.getD "duration" (intVal 3) with
        | .num q => q
        | _ => 3
      let waitLine :=
        "        self.wait(" ++ pyNumStr (max 0 (duration - 1)) ++ ")\n"
      let fade :=
        "        self.play(" ++
          String.intercalate ", "
            (((List.range es.length).map (elemVar sceneIdS)).map
              (fun v => "FadeOut(" ++ v ++ ")")) ++
          ")\n"
      [comment] ++ elemChunks ++ [play, waitLine, fade]

/-- Spec-side whole-program emission: the header, each scene's chunks in
document order with 1-based scene positions, and one final one-second
wait. -/
def specEmission (sb : PyJson) : List String :=
  let scenes :=
    match sb.getD "scenes" (.arr []) with
    | .arr ss => ss
    | _ => []
  [sceneHeader] ++
    (List.enumFrom 1 scenes).flatMap (fun p => specSceneCode p.1 p.2) ++
    ["        self.wait(1)\n"]

/-! ## Helper lemmas -/

mutual

theorem beqPy_refl : ∀ a, beqPy a a = true
  | .null => rfl
  | .bool b => by simp [beqPy]
  | .num q => by simp [beqPy]
  | .str s => by simp [beqPy]
  | .arr xs => by simp [beqPy, beqPyList_refl xs]
  | .obj kvs => by simp [beqPy, beqPyPairs_refl kvs]

theorem beqPyList_refl : ∀ xs, beqPyList xs xs = true
  | [] => rfl
  | x :: xs => by simp [beqPyList, beqPy_refl x, beqPyList_refl xs]

theorem beqPyPairs_refl : ∀ kvs, beqPyPairs kvs kvs = true
  | [] => rfl
  | (k, v) :: kvs => by simp [beqPyPairs, beqPy_refl v, beqPyPairs_refl kvs]

end

theorem ne_of_beqPy_false {a b : PyJson} (h : beqPy a b = false) : a ≠ b :=
  fun he => by rw [he, beqPy_refl] at h; exact Bool.noConfusion h

theorem lookupKey_setKey_self (kvs : List (String × PyJson)) (k : String)
    (v : PyJson) : lookupKey (setKey kvs k v) k = some v := by
  induction kvs with
  | nil => simp [setKey, lookupKey]
  | cons kv rest ih =>
      obtain ⟨k', v'⟩ := kv
      by_cases hk : k' = k
      · simp [setKey, lookupKey, hk]
      · simp [setKey, lookupKey, hk, ih]

theorem lookupKey_setKey_ne (kvs : List (String × PyJson)) {k k' : String}
    (v : PyJson) (h : k' ≠ k) :
    lookupKey (setKey kvs k v) k' = lookupKey kvs k' := by
  induction kvs with
  | nil => simp [setKey, lookupKey, Ne.symm h]
  | cons kv rest ih =>
      obtain ⟨k0, v0⟩ := kv
      by_cases hk : k0 = k
      · subst hk
        simp [setKey, lookupKey, Ne.symm h]
      · simp [setKey, lookupKey, hk, ih]

theorem setKey_self {kvs : List (String × PyJson)} {k : String} {v : PyJson}
    (h : lookupKey kvs k = some v) : setKey kvs k v = kvs := by
  induction kvs with
  | nil => simp [lookupKey] at h
  | cons kv rest ih =>
      obtain ⟨k0, v0⟩ := kv
      by_cases hk : k0 = k
      · simp [lookupKey, hk] at h
        simp [setKey, hk, h]
      · simp [lookupKey, hk] at h
        simp [setKey, hk, ih h]

theorem intVal_eq_cast (n : Int) : intVal n = .num (n : Rat) := by
  simp [intVal, Rat.mkRat_one]

theorem truthy_intVal (n : Int) : (intVal n).truthy = decide (n ≠ 0) := by
  rw [intVal_eq_cast]
  simp [PyJson.truthy]

theorem pyInt_intVal (n : Int) : pyInt (intVal n) = .ok n := by
  rw [intVal_eq_cast]
  simp [pyInt]

theorem pyOr_of_truthy {a : PyJson} (b : PyJson) (h : a.truthy = true) :
    a.pyOr b = a := by simp [PyJson.pyOr, h]

theorem pyOr_of_falsy {a : PyJson} (b : PyJson) (h : a.truthy = false) :
    a.pyOr b = b := by simp [PyJson.pyOr, h]

theorem normalizeScene_ok {idx : Nat} {s t : PyJson}
    (h : normalizeScene idx s = .ok t) :
    ∃ n items, pyInt (sceneIdRawOf idx (coerceScene s)) = .ok n ∧
      pyIter (elementsValOf (coerceScene s)) = .ok items ∧
      t = .obj [
        ("scene_id", intVal n),
        ("duration", (coerceScene s).getD "duration" (intVal 5)),
        ("narration", narrationOf (coerceScene s)),
        ("animation_type", animationTypeOf (coerceScene s)),
        ("elements", .arr (items.filterMap normalizeElement))] := by
  simp only [normalizeScene, bind, Except.bind] at h
  cases hpi : pyInt (sceneIdRawOf idx (coerceScene s)) with
  | error e => rw [hpi] at h; exact Except.noConfusion h
  | ok n =>
      rw [hpi] at h
      cases hit : pyIter (elementsValOf (coerceScene s)) with
      | error e => rw [hit] at h; exact Except.noConfusion h
      | ok items =>
          rw [hit] at h
          cases h
          exact ⟨n, items, rfl, rfl, rfl⟩

/-! ## Claim C1 -/

/-- C1 (code bug): `generate_storyboard` is claimed never to raise and to
always return a document with `scenes` present as a sequence, but the
response text "[1, 2, 3]" — valid JSON that is not an object — is returned
unchanged by `_normalize`'s non-dict branch, an array with no `scenes` key
at all; and a response whose scene has the string "x" as `scene_id` makes
`int()` raise a ValueError inside normalization. -/
theorem generate_storyboard_breaks_scenes_invariant :
    generate_storyboard "[1, 2, 3]" = .ok (.arr [intVal 1, intVal 2, intVal 3]) ∧
    (PyJson.arr [intVal 1, intVal 2, intVal 3]).get? "scenes" = none ∧
    (∀ kvs, PyJson.arr [intVal 1, intVal 2, intVal 3] ≠ .obj kvs) ∧
    generate_storyboard "\x7b\"scenes\": [\x7b\"scene_id\": \"x\"\x7d]\x7d" =
      .error .valueError :=
  ⟨rfl, rfl, fun _ h => PyJson.noConfusion h, rfl⟩

/-! ## Claim C4 -/

/-- C4 counterexample: a scene entry whose `duration` is the string "abc" —
unparseable as a number — keeps it verbatim after normalization; the
normalized duration is not the claimed default 5. -/
theorem normalized_duration_unparseable_kept :
    normalizeScene 1 (.obj [("duration", .str "abc")]) =
      .ok (.obj [("scene_id", intVal 1), ("duration", .str "abc"),
        ("narration", .str ""), ("animation_type", .str "text"),
        ("elements", .arr [])]) ∧
    PyJson.str "abc" ≠ intVal 5 :=
  ⟨rfl, ne_of_beqPy_false rfl⟩

/-- C4 (amended): the normalized scene's duration is the entry's `duration`
value verbatim whenever the field is present — whatever its type — and
defaults to 5 exactly when the field is absent (in particular for non-dict
entries, which have no fields). -/
theorem normalized_duration_verbatim_or_5 (idx : Nat) (s t : PyJson)
    (h : normalizeScene idx s = .ok t) :
    t.get? "duration" = some ((coerceScene s).getD "duration" (intVal 5)) := by
  obtain ⟨n, items, _, _, ht⟩ := normalizeScene_ok h
  subst ht
  rfl

/-- C4 witness: a concrete scene with a string duration, normalized; the
theorem applied at it yields that very string, not 5. -/
theorem normalized_duration_verbatim_or_5_witness :
    (PyJson.obj [("scene_id", intVal 2), ("duration", .str "soon"),
      ("narration", .str ""), ("animation_type", .str "text"),
      ("elements", .arr [])]).get? "duration" = some (.str "soon") :=
  normalized_duration_verbatim_or_5 2 (.obj [("duration", .str "soon")]) _ rfl

/-! ## Claim C10 -/

/-- C10: `or`-chaining treats present-but-falsy fields as absent: a scene
whose `scene_id` is 0 (with a falsy or missing `id`) has its scene id
reassigned to the scene's 1-based position, and a scene whose narration is
the empty string resolves its narration from `description`, then `text`,
then the empty string. -/
theorem falsy_fields_resolved_by_or_chaining (idx : Nat)
    (kvs : List (String × PyJson)) (t : PyJson)
    (h : normalizeScene idx (.obj kvs) = .ok t) :
    (lookupKey kvs "scene_id" = some (intVal 0) →
      ((lookupKey kvs "id").getD .null).truthy = false →
      t.get? "scene_id" = some (intVal idx)) ∧
    (lookupKey kvs "narration" = some (.str "") →
      t.get? "narration" =
        some (((lookupKey kvs "description").getD .null).pyOr
          (((lookupKey kvs "text").getD .null).pyOr (.str "")))) := by
  obtain ⟨n, items, hn, _, ht⟩ := normalizeScene_ok h
  subst ht
  constructor
  · intro h0 hid
    have hraw : sceneIdRawOf idx (coerceScene (.obj kvs)) = intVal idx := by
      simp only [sceneIdRawOf, coerceScene, PyJson.getD, PyJson.get?, h0]
      rw [Option.getD_some]
      rw [pyOr_of_falsy _ (by rw [truthy_intVal]; simp)]
      rw [pyOr_of_falsy _ hid]
    rw [hraw, pyInt_intVal] at hn
    cases hn
    rfl
  · intro h0
    have hnar : narrationOf (coerceScene (.obj kvs)) =
        ((lookupKey kvs "description").getD .null).pyOr
          (((lookupKey kvs "text").getD .null).pyOr (.str "")) := by
      simp only [narrationOf, coerceScene, PyJson.getD, PyJson.get?, h0]
      rw [Option.getD_some]
      rw [pyOr_of_falsy _ (by simp [PyJson.truthy])]
    rw [hnar]
    rfl

/-- C10 witness: position 3, scene id 0, empty narration with a description
present: the scene id becomes 3 and the narration the description text. -/
theorem falsy_fields_resolved_by_or_chaining_witness :
    (PyJson.obj [("scene_id", intVal 3), ("duration", intVal 5),
        ("narration", .str "D"), ("animation_type", .str "text"),
        ("elements", .arr [])]).get? "scene_id" = some (intVal 3) ∧
    (PyJson.obj [("scene_id", intVal 3), ("duration", intVal 5),
        ("narration", .str "D"), ("animation_type", .str "text"),
        ("elements", .arr [])]).get? "narration" = some (.str "D") := by
  have h := falsy_fields_resolved_by_or_chaining 3
    [("scene_id", intVal 0), ("narration", .str ""), ("description", .str "D")]
    (.obj [("scene_id", intVal 3), ("duration", intVal 5),
      ("narration", .str "D"), ("animation_type", .str "text"),
      ("elements", .arr [])]) rfl
  exact ⟨h.1 rfl rfl, h.2 rfl⟩

/-! ## Claim C9 -/

theorem retryGo_allTimeout (maxR : Nat) (outcomes : Nat → ReqOutcome)
    (ho : ∀ k, outcomes k = .readTimeout) (attempt : Nat) (sleeps : List Nat)
    (h : attempt < maxR) :
    retryGo maxR outcomes attempt sleeps =
      ⟨maxR,
       sleeps ++ (List.range (maxR - 1 - attempt)).map (fun j => 2 ^ (attempt + 1 + j)),
       .fatalTimeout⟩ := by
  rw [retryGo, ho attempt]
  by_cases hle : maxR ≤ attempt + 1
  · rw [dif_pos hle]
    have hm : maxR = attempt + 1 := by omega
    subst hm
    simp
  · rw [dif_neg hle]
    rw [retryGo_allTimeout maxR outcomes ho (attempt + 1) _ (by omega)]
    have hr : maxR - 1 - attempt = (maxR - 1 - (attempt + 1)) + 1 := by omega
    rw [hr, List.range_succ_eq_map]
    simp only [List.map_cons, List.map_map, List.append_assoc, List.cons_append,
      List.nil_append, Nat.add_zero]
    refine congrArg (fun l => CallTrace.mk maxR (sleeps ++ 2 ^ (attempt + 1) :: l) .fatalTimeout) ?_
    apply List.map_congr_left
    intro j _
    simp only [Function.comp_apply]
    congr 1
    omega
termination_by maxR - attempt

/-- C9: the backend call retries only on read timeouts, sleeping
exponentially (2, 4, 8, ... seconds) between attempts, and raises a fatal
runtime error after the configured number of attempts is exhausted; a
connection error or any other request error is fatal after a single POST,
with no retry and no sleep; a first-attempt success makes exactly one
POST. -/
theorem backend_retries_only_on_timeout :
    (∀ (cfg : Int) (outcomes : Nat → ReqOutcome),
      (∀ k, outcomes k = .readTimeout) →
      ollamaCall cfg outcomes =
        ⟨(max 1 cfg).toNat,
         (List.range ((max 1 cfg).toNat - 1)).map (fun j => 2 ^ (1 + j)),
         .fatalTimeout⟩) ∧
    (∀ (cfg : Int) (outcomes : Nat → ReqOutcome),
      outcomes 0 = .connError → ollamaCall cfg outcomes = ⟨1, [], .fatalConn⟩) ∧
    (∀ (cfg : Int) (outcomes : Nat → ReqOutcome),
      outcomes 0 = .reqError → ollamaCall cfg outcomes = ⟨1, [], .fatalReq⟩) ∧
    (∀ (cfg : Int) (outcomes : Nat → ReqOutcome),
      outcomes 0 = .success → ollamaCall cfg outcomes = ⟨1, [], .ok⟩) := by
  refine ⟨?_, ?_, ?_, ?_⟩
  · intro cfg outcomes ho
    have h1 : 0 < (max 1 cfg).toNat := by
      have : (1 : Int) ≤ max 1 cfg := le_max_left _ _
      omega
    rw [ollamaCall, retryGo_allTimeout _ outcomes ho 0 [] h1]
    simp only [List.nil_append, Nat.sub_zero, Nat.zero_add]
  · intro cfg outcomes h0
    rw [ollamaCall, retryGo, h0]
  · intro cfg outcomes h0
    rw [ollamaCall, retryGo, h0]
  · intro cfg outcomes h0
    rw [ollamaCall, retryGo, h0]

/-- C9 witness: with a configured retry count of 3, all-timeout runs make
three POSTs with sleeps 2 then 4 seconds before the fatal error; a
connection error, another request error, or a success each end after one
POST with no sleeps. -/
theorem backend_retries_only_on_timeout_witness :
    ollamaCall 3 (fun _ => .readTimeout) = ⟨3, [2, 4], .fatalTimeout⟩ ∧
    ollamaCall 3 (fun _ => .connError) = ⟨1, [], .fatalConn⟩ ∧
    ollamaCall 3 (fun _ => .reqError) = ⟨1, [], .fatalReq⟩ ∧
    ollamaCall 3 (fun _ => .success) = ⟨1, [], .ok⟩ :=
  ⟨backend_retries_only_on_timeout.1 3 _ (fun _ => rfl),
   backend_retries_only_on_timeout.2.1 3 _ rfl,
   backend_retries_only_on_timeout.2.2.1 3 _ rfl,
   backend_retries_only_on_timeout.2.2.2 3 _ rfl⟩

/-! ## Claim C6 -/

theorem extractLoop_eq_findSome (rest : List Char) : ∀ count taken,
    extractLoop count taken rest = (scanSpans count taken rest).findSome? jsonLoads := by
  induction rest with
  | nil => intro count taken; rfl
  | cons c rs ih =>
      intro count taken
      simp only [extractLoop, scanSpans]
      by_cases hc : c = rbrace ∧ depthStep count c = 0
      · simp only [if_pos hc, List.findSome?]
        cases hj : jsonLoads ((c :: taken).reverse) with
        | some j => simp [hj]
        | none => simp [hj, ih]
      · simp only [if_neg hc]
        exact ih _ _

theorem scanSpans_head (rest : List Char) : ∀ count taken,
    (scanSpans count taken rest).head? =
      (firstZeroLen count rest).map (fun n => taken.reverse ++ rest.take n) := by
  induction rest with
  | nil => intro count taken; rfl
  | cons c rs ih =>
      intro count taken
      simp only [scanSpans, firstZeroLen]
      by_cases hc : c = rbrace ∧ depthStep count c = 0
      · simp [if_pos hc, List.take_succ_cons]
      · simp only [if_neg hc]
        rw [ih]
        cases hfz : firstZeroLen (depthStep count c) rs with
        | none => rfl
        | some n =>
            simp [List.reverse_cons, List.take_succ_cons, List.append_assoc]

/-- C6: when direct parsing fails, recovery scans from the first opening
brace with a brace-depth counter; the extraction result is the first
candidate in scan order that parses — so a candidate that fails to parse is
scanned past rather than aborting — the first candidate is the shortest
complete brace-balanced span starting at the first brace, and on the
spec's example text the first candidate is the short first object, which
is also what extraction returns. -/
theorem balanced_brace_extraction :
    (braceCandidates "noise \x7b\"a\":1\x7d more \x7b\"b\":\x7b\"c\":2\x7d\x7d tail".data).head? =
      some "\x7b\"a\":1\x7d".data ∧
    extractJson "noise \x7b\"a\":1\x7d more \x7b\"b\":\x7b\"c\":2\x7d\x7d tail".data =
      some (.obj [("a", intVal 1)]) ∧
    (∀ cs, extractJson cs = (braceCandidates cs).findSome? jsonLoads) ∧
    (∀ cs, (braceCandidates cs).head? = shortestBalancedSpan cs) := by
  refine ⟨rfl, rfl, ?_, ?_⟩
  · intro cs
    simp only [extractJson, braceCandidates]
    cases hd : cs.dropWhile (fun c => c ≠ lbrace) with
    | nil => rfl
    | cons c rest => exact extractLoop_eq_findSome _ _ _
  · intro cs
    simp only [braceCandidates, shortestBalancedSpan]
    cases hd : cs.dropWhile (fun c => c ≠ lbrace) with
    | nil => rfl
    | cons c rest => simpa using scanSpans_head _ _ []

/-! ## Claim C3 -/

theorem extractLoop_none_of_not_hitsZero (rest : List Char) : ∀ count taken,
    hitsZero count rest = false → extractLoop count taken rest = none := by
  induction rest with
  | nil => intros; rfl
  | cons c rs ih =>
      intro count taken h
      simp only [hitsZero, Bool.or_eq_false_iff] at h
      obtain ⟨h1, h2⟩ := h
      simp only [extractLoop]
      rw [if_neg (by simpa using h1)]
      exact ih _ _ h2

theorem dropWhile_brace_head (cs : List Char) {c : Char} {rest : List Char}
    (h : cs.dropWhile (fun x => x ≠ lbrace) = c :: rest) : c = lbrace := by
  induction cs with
  | nil => exact absurd h (by simp)
  | cons a t ih =>
      rw [List.dropWhile_cons] at h
      by_cases ha : a = lbrace
      · rw [if_neg (by simp [ha])] at h
        injection h with h1 h2
        exact h1 ▸ ha
      · rw [if_pos (by simpa using ha)] at h
        exact ih h

theorem dropWhile_eq_drop_len_takeWhile (p : Char → Bool) (l : List Char) :
    l.dropWhile p = l.drop (l.takeWhile p).length := by
  induction l with
  | nil => rfl
  | cons a t ih =>
      by_cases ha : p a
      · simp [List.dropWhile_cons, List.takeWhile_cons, ha, ih]
      · simp [List.dropWhile_cons, List.takeWhile_cons, ha]

theorem extractJson_none_of_no_balanced (cs : List Char)
    (hb : hasBalancedSpan cs = false) : extractJson cs = none := by
  unfold extractJson
  cases hd : cs.dropWhile (fun c => c ≠ lbrace) with
  | nil => rfl
  | cons c rest =>
      have hc : c = lbrace := dropWhile_brace_head cs hd
      have hdrop : cs.drop (cs.takeWhile (fun c => c ≠ lbrace)).length = c :: rest := by
        rw [← dropWhile_eq_drop_len_takeWhile]
        exact hd
      have hplen : (cs.takeWhile (fun c => c ≠ lbrace)).length < cs.length := by
        have h1 := congrArg List.length hdrop
        rw [List.length_drop] at h1
        simp only [List.length_cons] at h1
        omega
      have hf := (List.any_eq_false.mp hb) _
        (List.mem_range.mpr hplen)
      rw [hdrop] at hf
      subst hc
      have hz : hitsZero 0 (lbrace :: rest) = false := by
        simpa [balancedSpanFrom] using hf
      exact extractLoop_none_of_not_hitsZero _ _ _ hz

theorem pyOr_str (x : String) (b : PyJson) :
    (PyJson.str x).pyOr b = if x = "" then b else .str x := by
  by_cases hx : x = "" <;> simp [PyJson.pyOr, PyJson.truthy, hx]

theorem narrationOf_fallbackScene (t : String) :
    narrationOf (fallbackScene t) = .str (pyStrip t) := by
  show (PyJson.str (pyStrip t)).pyOr (.str "") = .str (pyStrip t)
  rw [pyOr_str]
  by_cases hn : pyStrip t = "" <;> simp [hn]

theorem normalizeScene_fallbackScene (t : String) :
    normalizeScene 1 (fallbackScene t) = .ok (fallbackScene t) := by
  have h := narrationOf_fallbackScene t
  show (Except.ok (PyJson.obj [
    ("scene_id", intVal 1), ("duration", intVal 5),
    ("narration", narrationOf (fallbackScene t)),
    ("animation_type", PyJson.str "text"),
    ("elements", PyJson.arr [defaultTextElement (pyStrip t)])]) :
      Except PyErr PyJson) = Except.ok (fallbackScene t)
  rw [h]
  rfl

theorem normalizeGen_fallback (t : String) :
    normalizeGen (fallbackStoryboard t) (fallbackStoryboard t) =
      .ok (fallbackStoryboard t) := by
  have h := normalizeScene_fallbackScene t
  show (do
    let tt ← normalizeScene 1 (fallbackScene t)
    let ts ← normalizeScenes 2 []
    Except.ok (PyJson.obj
      [("title", .str "Generated Storyboard"),
       ("description",
         .str "Auto-generated fallback storyboard due to non-JSON model output"),
       ("scenes", .arr (tt :: ts))]) : Except PyErr PyJson) = .ok (fallbackStoryboard t)
  rw [h]
  rfl

/-- C3 counterexample: the claimed fallback behavior for all
brace-balanced-free text fails twice over. The text "5" contains no
balanced brace span, yet it parses as JSON directly, so the result is the
number 5 — not a document with one scene; and the all-whitespace text
"   " does produce the fallback document, but its narration is the empty
string, contradicting the claimed non-emptiness. -/
theorem fallback_claim_fails_on_parseable_and_blank_text :
    hasBalancedSpan "5".data = false ∧
    generate_storyboard "5" = .ok (.num 5) ∧
    (PyJson.num 5).get? "scenes" = none ∧
    hasBalancedSpan "   ".data = false ∧
    generate_storyboard "   " = .ok (fallbackStoryboard "   ") ∧
    (fallbackScene "   ").get? "narration" = some (.str "") :=
  ⟨rfl, rfl, rfl, rfl, rfl, rfl⟩

/-- C3 (amended): for every model-output text that fails direct JSON
parsing and contains no balanced brace span, normalization yields the
fallback document — exactly one scene, whose narration equals the input
text with surrounding whitespace trimmed (so it is non-empty exactly when
the trimmed text is). -/
theorem fallback_for_unparseable_braceless_text (text : String)
    (hp : jsonLoadsS text = none) (hb : hasBalancedSpan text.data = false) :
    generate_storyboard text = .ok (fallbackStoryboard text) ∧
    (fallbackStoryboard text).get? "scenes" = some (.arr [fallbackScene text]) ∧
    (fallbackScene text).get? "narration" = some (.str (pyStrip text)) := by
  refine ⟨?_, rfl, rfl⟩
  have hex : extractJson text.data = none := extractJson_none_of_no_balanced _ hb
  simp only [generate_storyboard, hp, hex]
  exact normalizeGen_fallback text

/-- C3 witness: the braceless, non-JSON text "hello world" yields the
fallback document with narration "hello world". -/
theorem fallback_for_unparseable_braceless_text_witness :
    generate_storyboard "hello world" = .ok (fallbackStoryboard "hello world") ∧
    (fallbackStoryboard "hello world").get? "scenes" =
      some (.arr [fallbackScene "hello world"]) ∧
    (fallbackScene "hello world").get? "narration" =
      some (.str (pyStrip "hello world")) :=
  fallback_for_unparseable_braceless_text "hello world" rfl rfl

/-! ## Claim C2 -/

theorem isJsonWs_isPyWs {a : Char} (h : isJsonWs a = true) : isPyWs a = true := by
  simp only [isJsonWs, Bool.or_eq_true, decide_eq_true_eq] at h
  rcases h with ((h | h) | h) | h <;> subst h <;> rfl

theorem isPyWs_lbrace : isPyWs lbrace = false := rfl

theorem dropWhile_pyWs_of_jsonWs {cs r : List Char}
    (h : cs.dropWhile isJsonWs = lbrace :: r) :
    cs.dropWhile isPyWs = lbrace :: r := by
  induction cs with
  | nil => exact absurd h (by simp)
  | cons a t ih =>
      rw [List.dropWhile_cons] at h ⊢
      by_cases hj : isJsonWs a = true
      · rw [if_pos hj] at h
        rw [if_pos (isJsonWs_isPyWs hj)]
        exact ih h
      · rw [if_neg hj] at h
        injection h with h1 h2
        subst h1
        rw [if_neg (by simp [isPyWs_lbrace])]
        rw [h2]

theorem dropWhile_append_singleton {p : Char → Bool} {a : Char}
    (ha : p a = false) (xs : List Char) :
    ∃ t, (xs ++ [a]).dropWhile p = t ++ [a] := by
  induction xs with
  | nil => exact ⟨[], by simp [List.dropWhile, ha]⟩
  | cons x txs ih =>
      by_cases hx : p x = true
      · obtain ⟨t, ht⟩ := ih
        exact ⟨t, by simp [List.dropWhile_cons, hx, ht]⟩
      · exact ⟨x :: txs, by simp [List.dropWhile_cons, hx]⟩

theorem stripChars_brace_head {cs r : List Char}
    (h : skipWsJ cs = lbrace :: r) : ∃ r2, stripChars cs = lbrace :: r2 := by
  have h1 : cs.dropWhile isPyWs = lbrace :: r := dropWhile_pyWs_of_jsonWs h
  obtain ⟨t, ht⟩ := dropWhile_append_singleton isPyWs_lbrace r.reverse
  refine ⟨t.reverse, ?_⟩
  simp only [stripChars, h1, List.reverse_cons, ht, List.reverse_append,
    List.reverse_reverse, List.reverse_cons, List.reverse_nil, List.nil_append]
  rfl

theorem parseJsonVal_obj_brace {fuel : Nat} {cs rest : List Char}
    {kvs : List (String × PyJson)}
    (h : parseJsonVal fuel cs = some (.obj kvs, rest)) :
    ∃ r, skipWsJ cs = lbrace :: r := by
  match fuel with
  | 0 => exact absurd h (by simp [parseJsonVal])
  | fuel + 1 =>
      rw [parseJsonVal] at h
      split at h
      · exact absurd h (by simp)
      · split at h
        · split at h <;> simp_all
        · split at h
          · split at h
            · exact absurd h (by simp)
            · split at h <;> simp_all
          · split at h
            · rename_i hc
              subst hc
              exact ⟨_, by assumption⟩
            · split at h
              · split at h <;> simp_all
              · split at h
                · split at h <;> simp_all
                · split at h
                  · split at h <;> simp_all
                  · split at h
                    · split at h <;> simp_all
                    · exact absurd h (by simp)

theorem jsonLoads_obj_strip_brace {d : String}
    {pkvs : List (String × PyJson)} (h : jsonLoadsS d = some (.obj pkvs)) :
    strStartsWith (pyStrip d) (String.mk [lbrace]) = true := by
  rw [jsonLoadsS, jsonLoads] at h
  cases hp : parseJsonVal (d.data.length + 1) d.data with
  | none => rw [hp] at h; exact absurd h (by simp)
  | some vr =>
      rw [hp] at h
      obtain ⟨v, rest⟩ := vr
      dsimp only at h
      by_cases hw : skipWsJ rest = []
      · rw [if_pos hw] at h
        injection h with h1
        subst h1
        obtain ⟨r, hr⟩ := parseJsonVal_obj_brace hp
        obtain ⟨r2, hr2⟩ := stripChars_brace_head hr
        simp [strStartsWith, pyStrip, hr2, isPrefixL]
      · rw [if_neg hw] at h
        exact absurd h (by simp)

theorem lookupKey_mergeField_same (outer m : List (String × PyJson))
    (k : String) :
    lookupKey (mergeField outer m k) k =
      (lookupKey m k).or (lookupKey outer k) := by
  unfold mergeField
  by_cases h : (lookupKey m k).isNone ∧ (lookupKey outer k).isSome
  · obtain ⟨hm, ho⟩ := h
    obtain ⟨v, hv⟩ := Option.isSome_iff_exists.mp ho
    rw [Option.isNone_iff_eq_none] at hm
    rw [if_pos ⟨by simp [hm], ho⟩, lookupKey_setKey_self, hm, hv]
    simp
  · rw [if_neg h]
    cases hm : lookupKey m k with
    | some v => simp
    | none =>
        cases ho : lookupKey outer k with
        | none => simp
        | some w => exact absurd ⟨by simp [hm], by simp [ho]⟩ h

theorem lookupKey_mergeField_ne (outer m : List (String × PyJson))
    {k k' : String} (h : k' ≠ k) :
    lookupKey (mergeField outer m k) k' = lookupKey m k' := by
  unfold mergeField
  by_cases hc : (lookupKey m k).isNone ∧ (lookupKey outer k).isSome
  · rw [if_pos hc, lookupKey_setKey_ne _ _ h]
  · rw [if_neg hc]

theorem mergeMeta_title (outer inner : List (String × PyJson)) :
    lookupKey (mergeMeta outer inner) "title" =
      (lookupKey inner "title").or (lookupKey outer "title") := by
  unfold mergeMeta
  rw [lookupKey_mergeField_ne _ _ (by decide), lookupKey_mergeField_same]

theorem mergeMeta_description (outer inner : List (String × PyJson)) :
    lookupKey (mergeMeta outer inner) "description" =
      (lookupKey inner "description").or (lookupKey outer "description") := by
  unfold mergeMeta
  rw [lookupKey_mergeField_same, lookupKey_mergeField_ne _ _ (by decide)]

theorem mergeMeta_other (outer inner : List (String × PyJson)) (k : String)
    (hk1 : k ≠ "title") (hk2 : k ≠ "description") :
    lookupKey (mergeMeta outer inner) k = lookupKey inner k := by
  unfold mergeMeta
  rw [lookupKey_mergeField_ne _ _ hk2, lookupKey_mergeField_ne _ _ hk1]

/-- C2 counterexample: the loader keys nested-document detection on the
first scene's description, not its narration. A document with exactly one
scene whose narration is the JSON text of an inner storyboard with title
"T" and a scenes array — squarely inside the claim's hypothesis — is
returned unchanged, and in particular does not acquire the inner title
"T". -/
theorem nested_doc_in_narration_not_detected :
    jsonLoadsS "\x7b\"title\": \"T\", \"scenes\": [\x7b\"scene_id\": 1\x7d]\x7d" =
      some (.obj [("title", .str "T"),
        ("scenes", .arr [.obj [("scene_id", intVal 1)]])]) ∧
    normalize_storyboard (.obj [("scenes", .arr [.obj [("narration",
        .str "\x7b\"title\": \"T\", \"scenes\": [\x7b\"scene_id\": 1\x7d]\x7d")]])]) =
      .ok (.obj [("scenes", .arr [.obj [("narration",
        .str "\x7b\"title\": \"T\", \"scenes\": [\x7b\"scene_id\": 1\x7d]\x7d")]])]) ∧
    (PyJson.obj [("scenes", .arr [.obj [("narration",
        .str "\x7b\"title\": \"T\", \"scenes\": [\x7b\"scene_id\": 1\x7d]\x7d")]])]).get?
        "title" = none :=
  ⟨rfl, rfl, rfl⟩

/-- C2 (amended): for every storyboard document with exactly one scene
whose description text parses as a JSON dict containing a scenes array,
the loader replaces the outer document with the parsed inner one, taking
the outer document's title and description only when the inner one lacks
them and leaving every other inner field untouched. -/
theorem nested_doc_in_description_replaces_outer
    (skvs fkv pkvs : List (String × PyJson)) (d : String) (xs : List PyJson)
    (h1 : lookupKey skvs "scenes" = some (.arr [.obj fkv]))
    (h2 : lookupKey fkv "description" = some (.str d))
    (h3 : jsonLoadsS d = some (.obj pkvs))
    (h4 : lookupKey pkvs "scenes" = some (.arr xs)) :
    normalize_storyboard (.obj skvs) = .ok (.obj (mergeMeta skvs pkvs)) ∧
    lookupKey (mergeMeta skvs pkvs) "title" =
      (lookupKey pkvs "title").or (lookupKey skvs "title") ∧
    lookupKey (mergeMeta skvs pkvs) "description" =
      (lookupKey pkvs "description").or (lookupKey skvs "description") ∧
    (∀ k, k ≠ "title" → k ≠ "description" →
      lookupKey (mergeMeta skvs pkvs) k = lookupKey pkvs k) := by
  refine ⟨?_, mergeMeta_title skvs pkvs, mergeMeta_description skvs pkvs,
    fun k hk1 hk2 => mergeMeta_other skvs pkvs k hk1 hk2⟩
  have hsw := jsonLoads_obj_strip_brace h3
  simp only [normalize_storyboard, pyGetAttrD, bind, Except.bind, h1,
    Option.getD_some, PyJson.getD, PyJson.get?, h2, h3, h4, hsw,
    Bool.or_true]
  rfl

/-- C2 witness: a document whose single scene's description is the JSON
text of an inner storyboard with title "T" normalizes to the inner
document, with title preserved as "T". -/
theorem nested_doc_in_description_replaces_outer_witness :
    normalize_storyboard (.obj [("title", .str "Outer"),
        ("scenes", .arr [.obj [("description",
          .str "\x7b\"title\": \"T\", \"scenes\": [\x7b\"scene_id\": 1\x7d]\x7d")]])]) =
      .ok (.obj [("title", .str "T"),
        ("scenes", .arr [.obj [("scene_id", intVal 1)]])]) :=
  (nested_doc_in_description_replaces_outer
      [("title", .str "Outer"),
       ("scenes", .arr [.obj [("description",
         .str "\x7b\"title\": \"T\", \"scenes\": [\x7b\"scene_id\": 1\x7d]\x7d")]])]
      [("description",
        .str "\x7b\"title\": \"T\", \"scenes\": [\x7b\"scene_id\": 1\x7d]\x7d")]
      [("title", .str "T"), ("scenes", .arr [.obj [("scene_id", intVal 1)]])]
      "\x7b\"title\": \"T\", \"scenes\": [\x7b\"scene_id\": 1\x7d]\x7d"
      [.obj [("scene_id", intVal 1)]]
      rfl rfl rfl rfl).1

/-! ## Claim C5 -/

/-- C5 counterexample: scale is embedded with plain `str()` interpolation,
not through JSON string encoding. An element whose `scale` field is the
string "9); pwned(" has that text spliced raw into the scale statement —
an executable-code injection — and the emitted line differs from the one
JSON encoding would produce. -/
theorem scale_interpolated_raw_not_json_encoded :
    create_element_code_lines "v" (.obj [("scale", .str "9); pwned(")]) =
      .ok ["        v = Text(\"\")\n",
           "        v.set_color(WHITE)\n",
           "        v.scale(9); pwned()\n",
           "        v.move_to([0, 0, 0])\n"] ∧
    "        v.scale(9); pwned()\n" ≠
      "        v.scale(" ++ jsonDumps (.str "9); pwned(") ++ ")\n" :=
  ⟨rfl, by decide⟩

/-- C5 (amended): content is literalized through `json.dumps`; a string
color is emitted as a bare identifier exactly when it satisfies `isupper`,
and otherwise — like every non-string color — through `json.dumps`; scale
and the three position components are embedded via plain `str()`
interpolation (which coincides with JSON encoding for numbers but does not
literalize strings). -/
theorem element_literal_rules (varName : String)
    (kvs : List (String × PyJson)) (ps : List PyJson)
    (hp : (lookupKey kvs "position").getD (.arr [intVal 0, intVal 0, intVal 0]) =
      .arr ps)
    (hlen : ps.length = 2 ∨ 3 ≤ ps.length) :
    create_element_code_lines varName (.obj kvs) = .ok
      [creationLine varName ((lookupKey kvs "type").getD (.str "text"))
         (jsonDumps ((lookupKey kvs "content").getD (.str ""))),
       "        " ++ varName ++ ".set_color(" ++
         (match (lookupKey kvs "color").getD (.str "WHITE") with
          | .str c => if pyIsUpper c then c else jsonDumps (.str c)
          | other => jsonDumps other) ++ ")\n",
       "        " ++ varName ++ ".scale(" ++
         pyStr ((lookupKey kvs "scale").getD (intVal 1)) ++ ")\n",
       "        " ++ varName ++ ".move_to([" ++
         pyStr (((padPos ps).get? 0).getD (intVal 0)) ++ ", " ++
         pyStr (((padPos ps).get? 1).getD (intVal 0)) ++ ", " ++
         pyStr (((padPos ps).get? 2).getD (intVal 0)) ++ "])\n"] := by
  unfold create_element_code_lines pyGetAttrD
  simp only [bind, Except.bind, hp]
  rcases hlen with h2 | h3
  · rcases ps with _ | ⟨a, _ | ⟨b, _ | ⟨c, t⟩⟩⟩ <;> simp at h2
    rfl
  · rcases ps with _ | ⟨a, _ | ⟨b, _ | ⟨c, t⟩⟩⟩ <;> simp at h3
    rfl

/-- C5 witness: a concrete text element with lowercase color "red",
numeric scale 2 and a two-entry position: content and color are emitted as
JSON string literals, the color is quoted (not bare), and the position
gains a zero z component. -/
theorem element_literal_rules_witness :
    create_element_code_lines "v" (.obj [("type", .str "text"),
        ("content", .str "hi"), ("color", .str "red"), ("scale", intVal 2),
        ("position", .arr [intVal 1, intVal 2])]) =
      .ok ["        v = Text(\"hi\")\n",
           "        v.set_color(\"red\")\n",
           "        v.scale(2)\n",
           "        v.move_to([1, 2, 0])\n"] :=
  element_literal_rules "v"
    [("type", .str "text"), ("content", .str "hi"), ("color", .str "red"),
     ("scale", intVal 2), ("position", .arr [intVal 1, intVal 2])]
    [intVal 1, intVal 2] rfl (Or.inl rfl)

/-! ## Claim C7 -/

theorem normalizeElement_fix {x e : PyJson} (h : normalizeElement x = some e) :
    normalizeElement e = some e := by
  match x with
  | .str s =>
      injection h with h1
      subst h1
      rfl
  | .obj kvs =>
      injection h with h1
      subst h1
      rfl
  | .null => exact absurd h (by simp [normalizeElement])
  | .bool b => exact absurd h (by simp [normalizeElement])
  | .num q => exact absurd h (by simp [normalizeElement])
  | .arr xs => exact absurd h (by simp [normalizeElement])

theorem filterMap_normalizeElement_fix (items : List PyJson) :
    (items.filterMap normalizeElement).filterMap normalizeElement =
      items.filterMap normalizeElement := by
  induction items with
  | nil => rfl
  | cons x rest ih =>
      cases hx : normalizeElement x with
      | none => simp [List.filterMap_cons, hx, ih]
      | some e => simp [List.filterMap_cons, hx, normalizeElement_fix hx, ih]

theorem narrationOf_truthy_or_empty (z : PyJson) :
    (narrationOf z).truthy = true ∨ narrationOf z = .str "" := by
  unfold narrationOf
  by_cases h1 : (z.getD "narration" .null).truthy = true
  · rw [pyOr_of_truthy _ h1]; exact Or.inl h1
  · rw [pyOr_of_falsy _ (by simpa using h1)]
    by_cases h2 : (z.getD "description" .null).truthy = true
    · rw [pyOr_of_truthy _ h2]; exact Or.inl h2
    · rw [pyOr_of_falsy _ (by simpa using h2)]
      by_cases h3 : (z.getD "text" .null).truthy = true
      · rw [pyOr_of_truthy _ h3]; exact Or.inl h3
      · rw [pyOr_of_falsy _ (by simpa using h3)]; exact Or.inr rfl

theorem animationTypeOf_truthy (z : PyJson) :
    (animationTypeOf z).truthy = true := by
  unfold animationTypeOf
  by_cases h1 : (z.getD "animation_type" .null).truthy = true
  · rw [pyOr_of_truthy _ h1]; exact h1
  · rw [pyOr_of_falsy _ (by simpa using h1)]
    by_cases h2 : (z.getD "type" .null).truthy = true
    · rw [pyOr_of_truthy _ h2]; exact h2
    · rw [pyOr_of_falsy _ (by simpa using h2)]; rfl

theorem normalizeScene_normd (idx2 : Nat) (n : Int) (dur nar at0 : PyJson)
    (es : List PyJson) (hn0 : n ≠ 0)
    (hnar : nar.truthy = true ∨ nar = .str "")
    (hat : at0.truthy = true)
    (hes : es.filterMap normalizeElement = es) :
    normalizeScene idx2 (.obj [("scene_id", intVal n), ("duration", dur),
      ("narration", nar), ("animation_type", at0), ("elements", .arr es)]) =
      .ok (.obj [("scene_id", intVal n), ("duration", dur), ("narration", nar),
        ("animation_type", at0), ("elements", .arr es)]) := by
  have hid : sceneIdRawOf idx2 (coerceScene (.obj [("scene_id", intVal n),
      ("duration", dur), ("narration", nar), ("animation_type", at0),
      ("elements", .arr es)])) = intVal n := by
    show (intVal n).pyOr (PyJson.null.pyOr (intVal idx2)) = intVal n
    exact pyOr_of_truthy _ (by rw [truthy_intVal]; simpa using hn0)
  have hel : elementsValOf (coerceScene (.obj [("scene_id", intVal n),
      ("duration", dur), ("narration", nar), ("animation_type", at0),
      ("elements", .arr es)])) = .arr es := by
    cases es with
    | nil => rfl
    | cons e es2 =>
        show (PyJson.arr (e :: es2)).pyOr (PyJson.null.pyOr (.arr [])) =
          .arr (e :: es2)
        exact pyOr_of_truthy _ rfl
  have hnar2 : narrationOf (coerceScene (.obj [("scene_id", intVal n),
      ("duration", dur), ("narration", nar), ("animation_type", at0),
      ("elements", .arr es)])) = nar := by
    rcases hnar with ht | he
    · show nar.pyOr (PyJson.null.pyOr (PyJson.null.pyOr (.str ""))) = nar
      exact pyOr_of_truthy _ ht
    · subst he; rfl
  have hat2 : animationTypeOf (coerceScene (.obj [("scene_id", intVal n),
      ("duration", dur), ("narration", nar), ("animation_type", at0),
      ("elements", .arr es)])) = at0 := by
    show at0.pyOr (PyJson.null.pyOr (.str "text")) = at0
    exact pyOr_of_truthy _ hat
  simp only [normalizeScene, bind, Except.bind]
  rw [hid, pyInt_intVal]
  dsimp only
  rw [hel, show pyIter (PyJson.arr es) = Except.ok es from rfl]
  dsimp only
  rw [hnar2, hat2, hes]
  rfl

theorem normalizeScene_fix {idx : Nat} {s y : PyJson}
    (h : normalizeScene idx s = .ok y)
    (hz : y.get? "scene_id" ≠ some (intVal 0)) (idx2 : Nat) :
    normalizeScene idx2 y = .ok y := by
  obtain ⟨n, items, hn, hit, hy⟩ := normalizeScene_ok h
  subst hy
  have hn0 : n ≠ 0 := by
    intro he
    subst he
    exact hz rfl
  exact normalizeScene_normd idx2 n _ _ _ _ hn0
    (narrationOf_truthy_or_empty _) (animationTypeOf_truthy _)
    (filterMap_normalizeElement_fix items)

theorem normalizeScenes_fix : ∀ (xs : List PyJson) (ys : List PyJson)
    (i j : Nat), normalizeScenes i xs = .ok ys →
    (∀ y ∈ ys, y.get? "scene_id" ≠ some (intVal 0)) →
    normalizeScenes j ys = .ok ys := by
  intro xs
  induction xs with
  | nil =>
      intro ys i j h hz
      injection h with h1
      subst h1
      rfl
  | cons x rest ih =>
      intro ys i j h hz
      simp only [normalizeScenes, bind, Except.bind] at h
      cases ht : normalizeScene i x with
      | error e => rw [ht] at h; exact Except.noConfusion h
      | ok t =>
          rw [ht] at h
          cases hts : normalizeScenes (i + 1) rest with
          | error e => rw [hts] at h; exact Except.noConfusion h
          | ok ts =>
              rw [hts] at h
              injection h with h1
              subst h1
              have hfix := normalizeScene_fix ht (hz t (List.mem_cons_self t ts)) j
              have hrest := ih ts (i + 1) (j + 1) hts
                (fun y hm => hz y (List.mem_cons_of_mem t hm))
              simp only [normalizeScenes, bind, Except.bind, hfix, hrest]

/-- C7 counterexample: normalization is not idempotent. The valid JSON
document whose single scene has the string "0" as `scene_id` — truthy, so
kept, but converted by `int()` to 0 — normalizes to a scene with scene id
0; renormalizing that output sees a falsy scene id and reassigns the
1-based position, producing a different document. -/
theorem normalize_not_idempotent :
    normalizeGen (.obj [("scenes", .arr [.obj [("scene_id", .str "0")]])])
        (.obj [("scenes", .arr [.obj [("scene_id", .str "0")]])]) =
      .ok (.obj [("scenes", .arr [.obj [("scene_id", intVal 0),
        ("duration", intVal 5), ("narration", .str ""),
        ("animation_type", .str "text"), ("elements", .arr [])]]),
        ("title", .str "Generated Storyboard")]) ∧
    normalizeGen (.obj [("scenes", .arr [.obj [("scene_id", intVal 0),
        ("duration", intVal 5), ("narration", .str ""),
        ("animation_type", .str "text"), ("elements", .arr [])]]),
        ("title", .str "Generated Storyboard")])
        (.obj [("scenes", .arr [.obj [("scene_id", intVal 0),
        ("duration", intVal 5), ("narration", .str ""),
        ("animation_type", .str "text"), ("elements", .arr [])]]),
        ("title", .str "Generated Storyboard")]) =
      .ok (.obj [("scenes", .arr [.obj [("scene_id", intVal 1),
        ("duration", intVal 5), ("narration", .str ""),
        ("animation_type", .str "text"), ("elements", .arr [])]]),
        ("title", .str "Generated Storyboard")]) ∧
    (PyJson.obj [("scenes", .arr [.obj [("scene_id", intVal 0),
        ("duration", intVal 5), ("narration", .str ""),
        ("animation_type", .str "text"), ("elements", .arr [])]]),
        ("title", .str "Generated Storyboard")]) ≠
      (PyJson.obj [("scenes", .arr [.obj [("scene_id", intVal 1),
        ("duration", intVal 5), ("narration", .str ""),
        ("animation_type", .str "text"), ("elements", .arr [])]]),
        ("title", .str "Generated Storyboard")]) :=
  ⟨rfl, rfl, ne_of_beqPy_false rfl⟩

/-- C7 (amended): for every valid JSON document with a `scenes` array whose
normalization succeeds, renormalizing the output reproduces it exactly —
provided no normalized scene carries scene id 0 (equivalently, no input
scene supplied a truthy `scene_id`/`id` that `int()` maps to 0, such as
the string "0"). -/
theorem normalize_idempotent_without_zero_ids
    (kvs : List (String × PyJson)) (xs : List PyJson) (out : PyJson)
    (hs : lookupKey kvs "scenes" = some (.arr xs))
    (h : normalizeGen (.obj kvs) (.obj kvs) = .ok out)
    (hz : ∀ ys, out.get? "scenes" = some (.arr ys) →
      ∀ y ∈ ys, y.get? "scene_id" ≠ some (intVal 0)) :
    normalizeGen out out = .ok out := by
  simp only [normalizeGen, bind, Except.bind] at h
  have hs1 : lookupKey (if (lookupKey kvs "title").isSome then kvs
      else setKey kvs "title" (.str "Generated Storyboard")) "scenes" =
      some (.arr xs) := by
    by_cases ht : (lookupKey kvs "title").isSome
    · rw [if_pos ht]; exact hs
    · rw [if_neg ht, lookupKey_setKey_ne _ _ (by decide)]; exact hs
  rw [hs1] at h
  dsimp only at h
  rw [hs1] at h
  dsimp only at h
  cases hns : normalizeScenes 1 xs with
  | error e => rw [hns] at h; exact Except.noConfusion h
  | ok ns =>
      rw [hns] at h
      injection h with h1
      subst h1
      have hKs : lookupKey (setKey (if (lookupKey kvs "title").isSome then kvs
          else setKey kvs "title" (.str "Generated Storyboard")) "scenes"
          (.arr ns)) "scenes" = some (.arr ns) := lookupKey_setKey_self _ _ _
      have hKt : (lookupKey (setKey (if (lookupKey kvs "title").isSome then kvs
          else setKey kvs "title" (.str "Generated Storyboard")) "scenes"
          (.arr ns)) "title").isSome := by
        rw [lookupKey_setKey_ne _ _ (by decide)]
        by_cases ht : (lookupKey kvs "title").isSome
        · rw [if_pos ht]; exact ht
        · rw [if_neg ht, lookupKey_setKey_self]; rfl
      have hzs : ∀ y ∈ ns, y.get? "scene_id" ≠ some (intVal 0) :=
        hz ns (by simp only [PyJson.get?]; exact hKs)
      have hfix := normalizeScenes_fix xs ns 1 1 hns hzs
      simp only [normalizeGen, bind, Except.bind]
      rw [if_pos hKt, hKs]
      dsimp only
      rw [hKs]
      dsimp only
      rw [hfix]
      dsimp only
      rw [setKey_self hKs]

/-- C7 witness: a document with one scene of scene id 2 normalizes, and the
theorem applied at it shows renormalizing the output reproduces it. -/
theorem normalize_idempotent_without_zero_ids_witness :
    normalizeGen (.obj [("scenes", .arr [.obj [("scene_id", intVal 2),
        ("duration", intVal 5), ("narration", .str ""),
        ("animation_type", .str "text"), ("elements", .arr [])]]),
        ("title", .str "Generated Storyboard")])
        (.obj [("scenes", .arr [.obj [("scene_id", intVal 2),
        ("duration", intVal 5), ("narration", .str ""),
        ("animation_type", .str "text"), ("elements", .arr [])]]),
        ("title", .str "Generated Storyboard")]) =
      .ok (.obj [("scenes", .arr [.obj [("scene_id", intVal 2),
        ("duration", intVal 5), ("narration", .str ""),
        ("animation_type", .str "text"), ("elements", .arr [])]]),
        ("title", .str "Generated Storyboard")]) := by
  refine normalize_idempotent_without_zero_ids
    [("scenes", .arr [.obj [("scene_id", intVal 2)]])]
    [.obj [("scene_id", intVal 2)]] _ rfl rfl ?_
  intro ys hy y hm hc
  have hy2 : some (PyJson.arr [.obj [("scene_id", intVal 2),
      ("duration", intVal 5), ("narration", .str ""),
      ("animation_type", .str "text"), ("elements", .arr [])]]) =
      some (PyJson.arr ys) := hy
  injection hy2 with hy3
  injection hy3 with hy4
  subst hy4
  rw [List.mem_singleton] at hm
  subst hm
  have hc2 : some (intVal 2) = some (intVal 0) := hc
  injection hc2 with hc3
  exact (@ne_of_beqPy_false (intVal 2) (intVal 0) rfl) hc3

/-! ## Claim C8 -/

theorem mkRat_sub_one (q : Rat) :
    mkRat (q.num - (q.den : Int)) q.den = q - 1 := by
  rw [Rat.mkRat_eq_divInt, Rat.divInt_eq_div]
  push_cast
  rw [sub_div, Rat.num_div_den, div_self (Nat.cast_ne_zero.mpr q.den_ne_zero)]

theorem ratMax0_eq_max (r : Rat) : ratMax0 r = max 0 r := by
  unfold ratMax0
  have hiff : r.num < 0 ↔ r < 0 := by
    rw [← not_le, ← not_le, Rat.num_nonneg]
  rcases lt_or_le r 0 with h | h
  · rw [if_pos (hiff.mpr h), max_eq_left h.le]
    simp
  · rw [if_neg (by rw [hiff]; exact not_lt.mpr h), max_eq_right h]

theorem pySubOne_spec (q : Rat) : pySubOne (.num q) = .ok (q - 1) := by
  simp only [pySubOne, mkRat_sub_one]

theorem wfElement_obj {e : PyJson} (h : wfElement e = true) :
    ∃ kv, e = PyJson.obj kv := by
  match e with
  | .obj kv => exact ⟨kv, rfl⟩
  | .null => exact absurd h (by simp [wfElement])
  | .bool b => exact absurd h (by simp [wfElement])
  | .num q => exact absurd h (by simp [wfElement])
  | .str s => exact absurd h (by simp [wfElement])
  | .arr xs => exact absurd h (by simp [wfElement])

theorem create_element_code_spec (v : String) (e : PyJson)
    (hw : wfElement e = true) :
    create_element_code v e = .ok (specElementCode v e) := by
  obtain ⟨kvs, hkv⟩ := wfElement_obj hw
  subst hkv
  simp only [wfElement] at hw
  have main : ∀ ps : List PyJson,
      (lookupKey kvs "position").getD (.arr [intVal 0, intVal 0, intVal 0]) =
        .arr ps →
      (ps.length = 2 ∨ 3 ≤ ps.length) →
      create_element_code v (.obj kvs) = .ok (specElementCode v (.obj kvs)) := by
    intro ps hp hlen
    have hlines := element_literal_rules v kvs ps hp hlen
    simp only [create_element_code, bind, Except.bind, hlines]
    simp only [specElementCode]
    dsimp only [PyJson.getD, PyJson.get?]
    rw [hp]
  cases hpos : lookupKey kvs "position" with
  | none =>
      exact main [intVal 0, intVal 0, intVal 0] (by rw [hpos]; rfl)
        (Or.inr (by simp))
  | some pv =>
      rw [hpos] at hw
      match pv with
      | .arr ps =>
          have hlen : ps.length = 2 ∨ 3 ≤ ps.length := by
            rcases Bool.or_eq_true_iff.mp hw with h | h
            · exact Or.inl (by simpa using h)
            · exact Or.inr (by simpa using h)
          exact main ps (by rw [hpos]; rfl) hlen
      | .null => exact absurd hw (by simp)
      | .bool b => exact absurd hw (by simp)
      | .num q => exact absurd hw (by simp)
      | .str s => exact absurd hw (by simp)
      | .obj k2 => exact absurd hw (by simp)

theorem elementsCode_spec (sid : String) : ∀ (es : List PyJson) (k : Nat),
    es.all wfElement = true →
    elementsCode sid k es =
      .ok ((List.enumFrom k es).map
        (fun p => specElementCode (elemVar sid p.1) p.2)) := by
  intro es
  induction es with
  | nil => intro k h; rfl
  | cons e rest ih =>
      intro k h
      simp only [List.all_cons, Bool.and_eq_true] at h
      simp only [elementsCode, bind, Except.bind,
        create_element_code_spec (elemVar sid k) e h.1, ih (k + 1) h.2]
      rfl

theorem animCalls_spec (sid : String) : ∀ (es : List PyJson) (k : Nat),
    es.all wfElement = true →
    animCalls sid k es =
      .ok ((List.enumFrom k es).map (fun p =>
        pyStr (p.2.getD "animation" (.str "FadeIn")) ++ "(" ++
          elemVar sid p.1 ++ ")")) := by
  intro es
  induction es with
  | nil => intro k h; rfl
  | cons e rest ih =>
      intro k h
      simp only [List.all_cons, Bool.and_eq_true] at h
      obtain ⟨kv, hkv⟩ := wfElement_obj h.1
      subst hkv
      simp only [animCalls, bind, Except.bind, pyGetAttrD, ih (k + 1) h.2]
      rfl

theorem safeNarration_spec (x : PyJson)
    (hx : (match x with | .str _ => true | v => !v.truthy) = true) :
    safeNarration x = .ok (match (if x.truthy then x else .str "") with
      | .str s =>
          String.mk (s.data.map (fun c => if c = '\n' ∨ c = '\r' then ' ' else c))
      | _ => "") := by
  match x with
  | .str s =>
      by_cases ht : (PyJson.str s).truthy = true
      · simp only [safeNarration, ht, if_true]
      · have hf : (PyJson.str s).truthy = false := by simpa using ht
        simp only [safeNarration, hf, if_false]
        rfl
  | .null => rfl
  | .bool b =>
      match b with
      | false => rfl
      | true => exact absurd hx (by simp [PyJson.truthy])
  | .num q =>
      have hf : (PyJson.num q).truthy = false := by simpa using hx
      simp only [safeNarration, hf, if_false]
      rfl
  | .arr xs =>
      have hf : (PyJson.arr xs).truthy = false := by simpa using hx
      simp only [safeNarration, hf, if_false]
      rfl
  | .obj kvs =>
      have hf : (PyJson.obj kvs).truthy = false := by simpa using hx
      simp only [safeNarration, hf, if_false]
      rfl

theorem sceneChunk_spec (i : Nat) (s : PyJson) (hw : wfScene s = true) :
    sceneChunk i s = .ok (specSceneCode i s) := by
  match s with
  | .null => exact absurd hw (by simp [wfScene])
  | .bool b => exact absurd hw (by simp [wfScene])
  | .num q => exact absurd hw (by simp [wfScene])
  | .str s2 => exact absurd hw (by simp [wfScene])
  | .arr a => exact absurd hw (by simp [wfScene])
  | .obj kvs =>
    simp only [wfScene, Bool.and_eq_true] at hw
    obtain ⟨⟨hdur, hnarr⟩, helem⟩ := hw
    have hES : ∃ es, (lookupKey kvs "elements").getD (.arr []) = .arr es ∧
        es.all wfElement = true := by
      revert helem
      generalize lookupKey kvs "elements" = lv
      cases lv with
      | none => intro _; exact ⟨[], rfl, rfl⟩
      | some ev =>
          intro helem
          match ev with
          | .arr es => exact ⟨es, rfl, by simpa using helem⟩
          | .null => exact absurd helem (by simp)
          | .bool b => exact absurd helem (by simp)
          | .num q => exact absurd helem (by simp)
          | .str s2 => exact absurd helem (by simp)
          | .obj k2 => exact absurd helem (by simp)
    obtain ⟨es, hes, hesw⟩ := hES
    have hDQ : ∃ dq : Rat,
        (lookupKey kvs "duration").getD (intVal 3) = .num dq := by
      revert hdur
      generalize lookupKey kvs "duration" = dlv
      cases dlv with
      | none => intro _; exact ⟨mkRat 3 1, rfl⟩
      | some dv =>
          intro hdur
          match dv with
          | .num q => exact ⟨q, rfl⟩
          | .null => exact absurd hdur (by simp)
          | .bool b => exact absurd hdur (by simp)
          | .str s2 => exact absurd hdur (by simp)
          | .arr a => exact absurd hdur (by simp)
          | .obj o => exact absurd hdur (by simp)
    obtain ⟨dq, hdq⟩ := hDQ
    simp only [sceneChunk, bind, Except.bind, pyGetAttrD]
    try dsimp only
    rw [safeNarration_spec _ hnarr]
    try dsimp only
    rw [hes, show pyIter (PyJson.arr es) = Except.ok es from rfl]
    try dsimp only
    rw [elementsCode_spec _ es 0 hesw]
    try dsimp only
    simp only [specSceneCode]
    dsimp only [PyJson.getD, PyJson.get?]
    rw [hes]
    cases es with
    | nil => rfl
    | cons e es2 =>
        try dsimp only
        rw [animCalls_spec _ _ 0 hesw]
        try dsimp only
        rw [hdq, pySubOne_spec]
        try dsimp only
        rw [ratMax0_eq_max]
        rfl

theorem scenesLoop_spec : ∀ (ss : List PyJson) (i : Nat),
    ss.all wfScene = true →
    scenesLoop i ss =
      .ok ((List.enumFrom i ss).flatMap (fun p => specSceneCode p.1 p.2)) := by
  intro ss
  induction ss with
  | nil => intro i h; rfl
  | cons s rest ih =>
      intro i h
      simp only [List.all_cons, Bool.and_eq_true] at h
      simp only [scenesLoop, bind, Except.bind, sceneChunk_spec i s h.1,
        ih (i + 1) h.2]
      rfl

/-- C8: for every storyboard whose scenes conform to the data model,
scene-code emission equals the spec-side emission: the fixed header; then,
for each scene in document order, its comment, one chunk per element, and
— exactly when the scene has at least one element — one combined appear
statement invoking each element's configured animation, one wait statement
for max(0, duration - 1) seconds and one combined fade-out statement for
all the scene's elements, a scene with no elements contributing only its
comment; and after all scenes one final one-second wait. -/
theorem scene_code_emission (kvs : List (String × PyJson)) (ss : List PyJson)
    (hs : lookupKey kvs "scenes" = some (.arr ss))
    (hw : ss.all wfScene = true) :
    generate_scene_code (.obj kvs) = .ok (specEmission (.obj kvs)) := by
  simp only [generate_scene_code, bind, Except.bind, pyGetAttrD]
  try dsimp only
  rw [hs]
  simp only [Option.getD_some]
  rw [show pyIter (PyJson.arr ss) = Except.ok ss from rfl]
  try dsimp only
  rw [scenesLoop_spec ss 1 hw]
  try dsimp only
  simp only [specEmission]
  dsimp only [PyJson.getD, PyJson.get?]
  rw [hs]
  simp only [Option.getD_some]

/-- C8 witness: a concrete two-scene storyboard — one scene with two
elements, one with none — emitted by the code equals the spec-side
emission. -/
theorem scene_code_emission_witness :
    generate_scene_code (.obj [("scenes", .arr [
      .obj [("scene_id", intVal 1), ("duration", intVal 5),
        ("narration", .str "Hello"),
        ("elements", .arr [
          .obj [("type", .str "text"), ("content", .str "Hi"),
            ("animation", .str "Write")],
          .obj [("type", .str "circle"), ("color", .str "RED")]])],
      .obj [("scene_id", intVal 2), ("narration", .str "Bye"),
        ("elements", .arr [])]])]) =
      .ok (specEmission (.obj [("scenes", .arr [
        .obj [("scene_id", intVal 1), ("duration", intVal 5),
          ("narration", .str "Hello"),
          ("elements", .arr [
            .obj [("type", .str "text"), ("content", .str "Hi"),
              ("animation", .str "Write")],
            .obj [("type", .str "circle"), ("color", .str "RED")]])],
        .obj [("scene_id", intVal 2), ("narration", .str "Bye"),
          ("elements", .arr [])]])])) :=
  scene_code_emission _ _ rfl rfl

end Narratix
